import Mathlib

set_option maxRecDepth 100000
set_option linter.unusedVariables false
set_option linter.unnecessarySimpa false

-- Shallow embedding of the web-condx ionospheric ray-tracing engine
-- (src/web-condx/visualizations.js, physics.js section).
-- Numbers are modelled as rationals; the JavaScript Math library's
-- transcendental functions (sqrt, exp, sin, cos, atan2) and the constant
-- Math.PI are abstracted as a structure of primitive functions `Prims`,
-- and the analytic facts about them that proofs rely on are collected in
-- `LawfulPrims`.  Every definition mirrors the corresponding JavaScript
-- function line by line.

namespace WebCondx

/-- Abstraction of the JavaScript Math primitives used by the physics code. -/
structure Prims where
  sqrt : ℚ → ℚ
  exp : ℚ → ℚ
  sin : ℚ → ℚ
  cos : ℚ → ℚ
  atan2 : ℚ → ℚ → ℚ
  pi : ℚ

/-- Facts about the real Math primitives that the proofs use. -/
structure LawfulPrims (P : Prims) : Prop where
  sqrt_nonneg : ∀ x, 0 ≤ P.sqrt x
  sqrt_le_one : ∀ x, x ≤ 1 → P.sqrt x ≤ 1
  sqrt_zero : P.sqrt 0 = 0
  sqrt_one : P.sqrt 1 = 1
  pi_pos : 0 < P.pi
  atan2_bound : ∀ y x, |P.atan2 y x| ≤ P.pi
  atan2_zero_one : P.atan2 0 1 = 0
  cos_zero : P.cos 0 = 1
  sin_zero : P.sin 0 = 0
  cos_nonneg : ∀ t, |t| ≤ P.pi / 2 → 0 ≤ P.cos t
  sin_nonneg : ∀ t, 0 ≤ t → t ≤ P.pi / 2 → 0 ≤ P.sin t

/-- JavaScript Math.sign. -/
def sign (x : ℚ) : ℚ := if 0 < x then 1 else if x < 0 then -1 else 0

/-- Earth radius in km (constant R_E in the source). -/
def R_E : ℚ := 6371.0

/-- Speed of light in m/s (constant c in the source). -/
def lightspeed : ℚ := 3.0e8

/-- Chapman layer profile at a single altitude (chapmanLayerSingle). -/
def chapmanLayerSingle (P : Prims) (z N_peak z_peak H : ℚ) : ℚ :=
  let reduced_z := (z - z_peak) / H
  let exponent := 1.0 - reduced_z - P.exp (-reduced_z)
  N_peak * P.exp exponent

/-- Chapman layer profile over an altitude array (chapmanLayer). -/
def chapmanLayer (P : Prims) (z : List ℚ) (N_peak z_peak H : ℚ) : List ℚ :=
  z.map fun altitude =>
    let reduced_z := (altitude - z_peak) / H
    let exponent := 1.0 - reduced_z - P.exp (-reduced_z)
    N_peak * P.exp exponent

/-- F2 peak altitude h_F2 as a function of foF2 and season: the base
three-regime value, plus the seasonal offset, re-clamped to the
regime-specific range (makeIonosphereForFoF2 / electronDensitySingle). -/
def hF2Of (foF2 : ℚ) (season : String) : ℚ :=
  let h1 :=
    if foF2 < 4.5 then max 260.0 (min 350.0 (260.0 + (4.5 - foF2) * 36.0))
    else if foF2 < 7.0 then 300.0 - ((foF2 - 4.5) / 2.5) * 20.0
    else max 250.0 (min 300.0 (300.0 - (foF2 - 7.0) * 2.0))
  let seasonal_offset :=
    if 7.0 ≤ foF2 then
      (if season = "summer" then -10.0 else if season = "winter" then 10.0 else 0.0)
    else if 4.5 ≤ foF2 then
      (if season = "summer" then -10.0 else if season = "winter" then 15.0 else 0.0)
    else
      (if season = "summer" then -10.0 else if season = "winter" then 15.0 else 0.0)
  let h2 := h1 + seasonal_offset
  if foF2 < 4.5 then max 260.0 (min 360.0 h2)
  else if foF2 < 7.0 then max 280.0 (min 320.0 h2)
  else max 240.0 (min 330.0 h2)

/-- D layer strength factor (the D_factor block of the source). -/
def D_factorOf (foF2 : ℚ) : ℚ :=
  if foF2 < 5.0 then 0.0 else if foF2 < 8.0 then (foF2 - 5.0) / 3.0 else 1.0

/-- F1 layer strength factor (the F1_factor block of the source). -/
def F1_factorOf (foF2 : ℚ) : ℚ :=
  if foF2 < 4.5 then 0.0 else if foF2 < 7.0 then (foF2 - 4.5) / 2.5 else 1.0

/-- E layer strength factor (the E_factor line of the source). -/
def E_factorOf (foF2 : ℚ) : ℚ := 0.5 + 0.5 * min 1.0 (foF2 / 12.0)

/-- F2 scale height, including the seasonal width scaling. -/
def F2_scaleOf (foF2 : ℚ) (season : String) : ℚ :=
  let H1 :=
    if foF2 < 4.5 then 70.0
    else if foF2 < 7.0 then 70.0 - ((foF2 - 4.5) / 2.5) * 15.0
    else 55.0
  if season = "winter" then H1 * 1.2
  else if season = "summer" then H1 * 0.8
  else H1

/-- Four-layer ionosphere over an altitude array (makeIonosphereForFoF2). -/
def makeIonosphereForFoF2 (P : Prims) (z : List ℚ) (foF2 : ℚ) (season : String) : List ℚ :=
  let Ne_F2_peak := (foF2 * 1e6 / 8.98) ^ 2
  let Ne_D := chapmanLayer P z (1.5e9 * D_factorOf foF2) 75.0 8.0
  let Ne_E := chapmanLayer P z (8e10 * E_factorOf foF2) 110.0 15.0
  let Ne_F1 := chapmanLayer P z (6e11 * F1_factorOf foF2) 190.0 30.0
  let Ne_F2 := chapmanLayer P z Ne_F2_peak (hF2Of foF2 season) (F2_scaleOf foF2 season)
  z.enum.map fun p => Ne_D.getD p.1 0 + Ne_E.getD p.1 0 + Ne_F1.getD p.1 0 + Ne_F2.getD p.1 0

/-- Electron density at a single point (electronDensitySingle). -/
def electronDensitySingle (P : Prims) (z foF2 : ℚ) (season : String) : ℚ :=
  let Ne_F2_peak := (foF2 * 1e6 / 8.98) ^ 2
  let Ne_D := chapmanLayerSingle P z (1.5e9 * D_factorOf foF2) 75.0 8.0
  let Ne_E := chapmanLayerSingle P z (8e10 * E_factorOf foF2) 110.0 15.0
  let Ne_F1 := chapmanLayerSingle P z (6e11 * F1_factorOf foF2) 190.0 30.0
  let Ne_F2 := chapmanLayerSingle P z Ne_F2_peak (hF2Of foF2 season) (F2_scaleOf foF2 season)
  Ne_D + Ne_E + Ne_F1 + Ne_F2

/-- Electron density at a single point of the tilted 2D ionosphere
(electronDensity2DSingle): linear interpolation of foF2 with distance,
clamped to the range 2..25 MHz. -/
def electronDensity2DSingle (P : Prims)
    (z x foF2_at_tx foF2_at_distance tilt_distance : ℚ) (season : String) : ℚ :=
  let foF2_local := foF2_at_tx + (foF2_at_distance - foF2_at_tx) * (x / tilt_distance)
  let foF2_clamped := max 2.0 (min 25.0 foF2_local)
  electronDensitySingle P z foF2_clamped season

/-- Plasma frequency from electron density (plasmaFrequencyFromNe). -/
def plasmaFrequencyFromNe (P : Prims) (Ne : ℚ) : ℚ :=
  let e : ℚ := 1.602176634e-19
  let m_e : ℚ := 9.1093837015e-31
  let eps_0 : ℚ := 8.8541878128e-12
  P.sqrt (Ne * e * e / (eps_0 * m_e)) / (2.0 * P.pi)

/-- Collision frequency profile (collisionFrequency). -/
def collisionFrequency (P : Prims) (z : ℚ) : ℚ :=
  if z < 90.0 then 3.5e5 * P.exp (-(z - 70.0) / 8.0)
  else if z < 150.0 then 1.0e5 * P.exp (-(z - 90.0) / 20.0)
  else 1.0e3

/-- Complex number as the source's plain {real, imag} record. -/
structure Cpx where
  real : ℚ
  imag : ℚ
  deriving DecidableEq

/-- Appleton-Hartree complex refractive index (refractiveIndex): principal
complex square root taken via magnitude and half-angle phase. -/
def refractiveIndex (P : Prims) (Ne freq_Hz nu : ℚ) : Cpx :=
  let omega := 2.0 * P.pi * freq_Hz
  let omega_p := 2.0 * P.pi * plasmaFrequencyFromNe P Ne
  let X := (omega_p / omega) ^ 2
  let Z := nu / omega
  let denom := 1.0 + Z * Z
  let n_sq_real := 1.0 - X / denom
  let n_sq_imag := X * Z / denom
  let magnitude := P.sqrt (P.sqrt (n_sq_real * n_sq_real + n_sq_imag * n_sq_imag))
  let phase := P.atan2 n_sq_imag n_sq_real / 2.0
  ⟨magnitude * P.cos phase, magnitude * P.sin phase⟩

/-- Terminal status of a ray trace. -/
inductive RayStatus where
  | returns
  | escapes
  | stops
  deriving DecidableEq

/-- Result of traceRaySphericalWithPath. -/
structure PathResult where
  distances : List ℚ
  altitudes : List ℚ
  status : RayStatus
  deriving DecidableEq

/-- Result of traceRayWithAbsorption. -/
structure AbsResult where
  distances : List ℚ
  altitudes : List ℚ
  total_loss_dB : ℚ
  status : RayStatus
  deriving DecidableEq

/-- Result of traceRay2DWithTilts. -/
structure Tilts2DResult where
  distances : List ℚ
  altitudes : List ℚ
  azimuths : List ℚ
  status : RayStatus
  deriving DecidableEq

/-- Result of traceRay2DWithAbsorption. -/
structure Abs2DResult where
  distances : List ℚ
  altitudes : List ℚ
  azimuths : List ℚ
  total_loss_dB : ℚ
  status : RayStatus
  deriving DecidableEq

/-- Mutable loop state of traceRaySphericalWithPath. -/
structure St1 where
  r : ℚ
  theta : ℚ
  going_up : Bool
  distances : List ℚ
  altitudes : List ℚ
  deriving DecidableEq

/-- Mutable loop state of traceRayWithAbsorption. -/
structure StA1 where
  r : ℚ
  theta : ℚ
  total_loss_nepers : ℚ
  going_up : Bool
  distances : List ℚ
  altitudes : List ℚ
  deriving DecidableEq

/-- Mutable loop state of traceRay2DWithTilts. -/
structure St2 where
  r : ℚ
  theta : ℚ
  x : ℚ
  phi : ℚ
  going_up : Bool
  distances : List ℚ
  altitudes : List ℚ
  azimuths : List ℚ
  deriving DecidableEq

/-- Mutable loop state of traceRay2DWithAbsorption. -/
structure StA2 where
  r : ℚ
  theta : ℚ
  x : ℚ
  phi : ℚ
  total_loss_nepers : ℚ
  going_up : Bool
  distances : List ℚ
  altitudes : List ℚ
  azimuths : List ℚ
  deriving DecidableEq

/-- Outcome of one iteration of a tracer loop: either the function returns
a finished result, or the loop continues with an updated state. -/
inductive StepRes (σ ρ : Type) where
  | done : ρ → StepRes σ ρ
  | cont : σ → StepRes σ ρ
  deriving DecidableEq

/-- Electron density queried by the 1D tracers at altitude z:
the source line `const Ne = z >= 0 ? ionosphere_func(z) : 0`. -/
def trace1D_density (ionosphere_func : ℚ → ℚ) (z : ℚ) : ℚ :=
  if 0 ≤ z then ionosphere_func z else 0

/-- Electron density queried by the 2D tracers at position (z, x):
the body of the getRefractiveIndex closure, which returns 0 unless
0 ≤ z ≤ 600 km. -/
def trace2D_density (P : Prims)
    (foF2_at_tx foF2_at_distance tilt_distance : ℚ) (season : String) (z x_dist : ℚ) : ℚ :=
  if 0 ≤ z ∧ z ≤ 600 then
    electronDensity2DSingle P z x_dist foF2_at_tx foF2_at_distance tilt_distance season
  else 0

/-- The getRefractiveIndex helper closure of the 2D tracers. -/
def getRefractiveIndex2D (P : Prims) (freq_Hz : ℚ)
    (foF2_at_tx foF2_at_distance tilt_distance : ℚ) (season : String) (z x_dist : ℚ) : Cpx :=
  refractiveIndex P (trace2D_density P foF2_at_tx foF2_at_distance tilt_distance season z x_dist)
    freq_Hz (collisionFrequency P (max 0 z))

/-- Re(n²) computed from the complex refractive index (the n_squared.real
line of each tracer). -/
def n2Real (n : Cpx) : ℚ := n.real * n.real - n.imag * n.imag

/-- The sin_psi / going_up computation shared by all four tracers:
if |Re(n)| < 1e-8, total reflection is forced (sin_psi = 1, descending);
otherwise sin_psi = b / (Re(n)·r), descending if Re(n²) ≤ 0. -/
def sinPsiGoingUp (b r n_real nsq_real : ℚ) (going_up : Bool) : ℚ × Bool :=
  if |n_real| < 1e-8 then (1.0, false)
  else (b / (n_real * r), if nsq_real ≤ 0 then false else going_up)

/-- The reflection clamp shared by all four tracers: when |sin_psi| ≥ 1
(and the escape branch did not fire) the ray flips to descending and
sin_psi is clamped to sign(sin_psi)·0.999. -/
def reflectClamp (sin_psi : ℚ) (going_up : Bool) : ℚ × Bool :=
  if 1 ≤ |sin_psi| then (sign sin_psi * 0.999, false) else (sin_psi, going_up)

/-- The radial direction factor `(going_up ? 1 : -1)` of every tracer. -/
def dirSign (going_up : Bool) : ℚ := if going_up then 1 else -1

/-- Fixed step length (step_km = 1.0 in every tracer). -/
def step_km : ℚ := 1.0

/-- Adaptive step size: halved near the reflection point. -/
def adaptiveStep (n_real sin_psi : ℚ) : ℚ :=
  if n_real < 0.1 ∨ 0.95 < |sin_psi| then step_km * 0.5 else step_km

/-- Initial state of traceRaySphericalWithPath: launch at the surface,
ascending, with one zero sample in each path array. -/
def tracePathInit : St1 := ⟨R_E, 0, true, [0], [0]⟩

/-- Initial state of traceRayWithAbsorption. -/
def traceAbsInit : StA1 := ⟨R_E, 0, 0, true, [0], [0]⟩

/-- Initial state of traceRay2DWithTilts. -/
def traceTiltsInit : St2 := ⟨R_E, 0, 0, 0, true, [0], [0], [0]⟩

/-- Initial state of traceRay2DWithAbsorption. -/
def traceAbs2DInit : StA2 := ⟨R_E, 0, 0, 0, 0, true, [0], [0], [0]⟩

/-- One iteration of the traceRaySphericalWithPath loop. -/
def stepPath (P : Prims) (ionosphere_func : ℚ → ℚ) (freq_Hz b max_distance_km : ℚ)
    (stepIdx : ℕ) (s : St1) : StepRes St1 PathResult :=
  let z := s.r - R_E
  if z < 0 ∧ 10 < stepIdx then .done ⟨s.distances, s.altitudes, .returns⟩ else
  let n_complex := refractiveIndex P (trace1D_density ionosphere_func z) freq_Hz
    (collisionFrequency P (max 0 z))
  let sg := sinPsiGoingUp b s.r n_complex.real (n2Real n_complex) s.going_up
  if 1 ≤ |sg.1| ∧ 600 < z ∧ sg.2 = true then .done ⟨s.distances, s.altitudes, .escapes⟩ else
  let rc := reflectClamp sg.1 sg.2
  if 800 < z ∧ rc.2 = true then .done ⟨s.distances, s.altitudes, .escapes⟩ else
  let cos_psi := P.sqrt (1 - rc.1 * rc.1)
  let adaptive_step := adaptiveStep n_complex.real rc.1
  let r2 := s.r + adaptive_step * cos_psi * dirSign rc.2
  let theta2 := s.theta + adaptive_step * rc.1 / s.r
  let distances2 := s.distances ++ [theta2 * R_E]
  let altitudes2 := s.altitudes ++ [r2 - R_E]
  if max_distance_km < theta2 * R_E then .done ⟨distances2, altitudes2, .stops⟩
  else .cont ⟨r2, theta2, rc.2, distances2, altitudes2⟩

/-- The traceRaySphericalWithPath loop, by remaining fuel; running out of
fuel is the loop bound being exhausted, which yields status stops. -/
def tracePathLoop (P : Prims) (ionosphere_func : ℚ → ℚ) (freq_Hz b max_distance_km : ℚ) :
    ℕ → ℕ → St1 → PathResult
  | 0, _, s => ⟨s.distances, s.altitudes, .stops⟩
  | fuel + 1, stepIdx, s =>
    match stepPath P ionosphere_func freq_Hz b max_distance_km stepIdx s with
    | .done res => res
    | .cont s2 => tracePathLoop P ionosphere_func freq_Hz b max_distance_km fuel (stepIdx + 1) s2

/-- traceRaySphericalWithPath: 1D spherical ray tracer with path recording. -/
def traceRaySphericalWithPath (P : Prims) (freq_MHz elevation_deg : ℚ)
    (ionosphere_func : ℚ → ℚ) (max_distance_km : ℚ) : PathResult :=
  let freq_Hz := freq_MHz * 1e6
  let psi_0 := elevation_deg * P.pi / 180
  let Ne0 := ionosphere_func 0
  let nu0 := collisionFrequency P 0
  let n0 := (refractiveIndex P Ne0 freq_Hz nu0).real
  let b := n0 * R_E * P.sin psi_0
  let max_steps := (⌊max_distance_km / step_km⌋).toNat
  tracePathLoop P ionosphere_func freq_Hz b max_distance_km max_steps 0 tracePathInit

/-- One iteration of the traceRayWithAbsorption loop. -/
def stepAbs (P : Prims) (ionosphere_func : ℚ → ℚ) (freq_Hz b max_distance_km : ℚ)
    (stepIdx : ℕ) (s : StA1) : StepRes StA1 AbsResult :=
  let omega := 2.0 * P.pi * freq_Hz
  let z := s.r - R_E
  if z < 0 ∧ 10 < stepIdx then
    .done ⟨s.distances, s.altitudes, s.total_loss_nepers * 8.686, .returns⟩ else
  let n_complex := refractiveIndex P (trace1D_density ionosphere_func z) freq_Hz
    (collisionFrequency P (max 0 z))
  let alpha := (omega / (2.0 * lightspeed)) * |2 * n_complex.real * n_complex.imag| /
    max n_complex.real 1e-10
  let sg := sinPsiGoingUp b s.r n_complex.real (n2Real n_complex) s.going_up
  if 1 ≤ |sg.1| ∧ 600 < z ∧ sg.2 = true then
    .done ⟨s.distances, s.altitudes, s.total_loss_nepers * 8.686, .escapes⟩ else
  let rc := reflectClamp sg.1 sg.2
  if 800 < z ∧ rc.2 = true then
    .done ⟨s.distances, s.altitudes, s.total_loss_nepers * 8.686, .escapes⟩ else
  let cos_psi := P.sqrt (1 - rc.1 * rc.1)
  let adaptive_step := adaptiveStep n_complex.real rc.1
  let loss2 := s.total_loss_nepers + alpha * (adaptive_step * 1000.0)
  let r2 := s.r + adaptive_step * cos_psi * dirSign rc.2
  let theta2 := s.theta + adaptive_step * rc.1 / s.r
  let distances2 := s.distances ++ [theta2 * R_E]
  let altitudes2 := s.altitudes ++ [r2 - R_E]
  if max_distance_km < theta2 * R_E then .done ⟨distances2, altitudes2, loss2 * 8.686, .stops⟩
  else .cont ⟨r2, theta2, loss2, rc.2, distances2, altitudes2⟩

/-- The traceRayWithAbsorption loop. -/
def traceAbsLoop (P : Prims) (ionosphere_func : ℚ → ℚ) (freq_Hz b max_distance_km : ℚ) :
    ℕ → ℕ → StA1 → AbsResult
  | 0, _, s => ⟨s.distances, s.altitudes, s.total_loss_nepers * 8.686, .stops⟩
  | fuel + 1, stepIdx, s =>
    match stepAbs P ionosphere_func freq_Hz b max_distance_km stepIdx s with
    | .done res => res
    | .cont s2 => traceAbsLoop P ionosphere_func freq_Hz b max_distance_km fuel (stepIdx + 1) s2

/-- traceRayWithAbsorption: 1D ray tracer with absorption tracking. -/
def traceRayWithAbsorption (P : Prims) (freq_MHz elevation_deg : ℚ)
    (ionosphere_func : ℚ → ℚ) (max_distance_km : ℚ) : AbsResult :=
  let freq_Hz := freq_MHz * 1e6
  let psi_0 := elevation_deg * P.pi / 180
  let Ne0 := ionosphere_func 0
  let nu0 := collisionFrequency P 0
  let n0 := (refractiveIndex P Ne0 freq_Hz nu0).real
  let b := n0 * R_E * P.sin psi_0
  let max_steps := (⌊max_distance_km / step_km⌋).toNat
  traceAbsLoop P ionosphere_func freq_Hz b max_distance_km max_steps 0 traceAbsInit

/-- Horizontal gradient dn/dx estimated by the 2D tracers: centered
difference away from the transmitter, forward difference near it,
zero exactly at x = 0. -/
def dnDxOf (P : Prims) (freq_Hz foF2_at_tx foF2_at_distance tilt_distance : ℚ)
    (season : String) (z x n_real : ℚ) : ℚ :=
  let dx_sample : ℚ := if n_real < 0.1 then 0.5 else 1.0
  if dx_sample < x then
    ((getRefractiveIndex2D P freq_Hz foF2_at_tx foF2_at_distance tilt_distance season
        z (x + dx_sample)).real -
      (getRefractiveIndex2D P freq_Hz foF2_at_tx foF2_at_distance tilt_distance season
        z (x - dx_sample)).real) / (2 * dx_sample)
  else if 0 < x then
    ((getRefractiveIndex2D P freq_Hz foF2_at_tx foF2_at_distance tilt_distance season
        z (x + dx_sample)).real - n_real) / dx_sample
  else 0

/-- Azimuth deflection increment dphi of one 2D step, with the smooth
tapers near the turning point. -/
def dphiOf (n_real sin_psi dn_dx adaptive_step : ℚ) : ℚ :=
  let sin_psi_abs := |sin_psi|
  if 0.1 < sin_psi_abs ∧ 0.05 < n_real then
    let dphi_ds := -(1.0 / n_real) * dn_dx / sin_psi_abs
    let smoothing1 :=
      if 0.9 < sin_psi_abs then max 0.0 (min 1.0 ((1.0 - sin_psi_abs) / 0.1)) else 1.0
    let smoothing_factor :=
      if n_real < 0.15 then smoothing1 * max 0.0 (min 1.0 ((n_real - 0.05) / 0.10))
      else smoothing1
    dphi_ds * adaptive_step * smoothing_factor
  else 0

/-- One iteration of the traceRay2DWithTilts loop. -/
def stepTilts (P : Prims) (freq_Hz foF2_at_tx foF2_at_distance tilt_distance : ℚ)
    (season : String) (b max_distance_km : ℚ) (stepIdx : ℕ) (s : St2) :
    StepRes St2 Tilts2DResult :=
  let z := s.r - R_E
  if z < 0 ∧ 10 < stepIdx then
    .done ⟨s.distances, s.altitudes, s.azimuths.map (fun a => a * 180.0 / P.pi), .returns⟩ else
  let n_complex := getRefractiveIndex2D P freq_Hz foF2_at_tx foF2_at_distance tilt_distance
    season z s.x
  let dn_dx := dnDxOf P freq_Hz foF2_at_tx foF2_at_distance tilt_distance season z s.x
    n_complex.real
  let sg := sinPsiGoingUp b s.r n_complex.real (n2Real n_complex) s.going_up
  if 1 ≤ |sg.1| ∧ 600 < z ∧ sg.2 = true then
    .done ⟨s.distances, s.altitudes, s.azimuths.map (fun a => a * 180.0 / P.pi), .escapes⟩ else
  let rc := reflectClamp sg.1 sg.2
  if 800 < z ∧ rc.2 = true then
    .done ⟨s.distances, s.altitudes, s.azimuths.map (fun a => a * 180.0 / P.pi), .escapes⟩ else
  let cos_psi := P.sqrt (1 - rc.1 * rc.1)
  let adaptive_step := adaptiveStep n_complex.real rc.1
  let dphi := dphiOf n_complex.real rc.1 dn_dx adaptive_step
  let d_theta := adaptive_step * rc.1 / s.r
  let r2 := s.r + adaptive_step * cos_psi * dirSign rc.2
  let theta2 := s.theta + d_theta
  let x2 := s.x + |d_theta * R_E|
  let phi2 := s.phi + dphi
  let distances2 := s.distances ++ [theta2 * R_E]
  let altitudes2 := s.altitudes ++ [r2 - R_E]
  let azimuths2 := s.azimuths ++ [phi2]
  if max_distance_km < x2 then
    .done ⟨distances2, altitudes2, azimuths2.map (fun a => a * 180.0 / P.pi), .stops⟩
  else .cont ⟨r2, theta2, x2, phi2, rc.2, distances2, altitudes2, azimuths2⟩

/-- The traceRay2DWithTilts loop. -/
def traceTiltsLoop (P : Prims) (freq_Hz foF2_at_tx foF2_at_distance tilt_distance : ℚ)
    (season : String) (b max_distance_km : ℚ) : ℕ → ℕ → St2 → Tilts2DResult
  | 0, _, s => ⟨s.distances, s.altitudes, s.azimuths.map (fun a => a * 180.0 / P.pi), .stops⟩
  | fuel + 1, stepIdx, s =>
    match stepTilts P freq_Hz foF2_at_tx foF2_at_distance tilt_distance season b
      max_distance_km stepIdx s with
    | .done res => res
    | .cont s2 => traceTiltsLoop P freq_Hz foF2_at_tx foF2_at_distance tilt_distance season b
        max_distance_km fuel (stepIdx + 1) s2

/-- traceRay2DWithTilts: 2D ray tracer with azimuth deflection tracking. -/
def traceRay2DWithTilts (P : Prims) (freq_MHz elevation_deg : ℚ)
    (foF2_at_tx foF2_at_distance tilt_distance max_distance_km : ℚ) (season : String) :
    Tilts2DResult :=
  let freq_Hz := freq_MHz * 1e6
  let psi_0 := elevation_deg * P.pi / 180
  let n_0 := (getRefractiveIndex2D P freq_Hz foF2_at_tx foF2_at_distance tilt_distance
    season 0 0).real
  let b := n_0 * R_E * P.sin psi_0
  let max_steps := (⌊max_distance_km / step_km⌋).toNat
  traceTiltsLoop P freq_Hz foF2_at_tx foF2_at_distance tilt_distance season b max_distance_km
    max_steps 0 traceTiltsInit

/-- One iteration of the traceRay2DWithAbsorption loop. -/
def stepAbs2D (P : Prims) (freq_Hz foF2_at_tx foF2_at_distance tilt_distance : ℚ)
    (season : String) (b max_distance_km : ℚ) (stepIdx : ℕ) (s : StA2) :
    StepRes StA2 Abs2DResult :=
  let omega := 2.0 * P.pi * freq_Hz
  let z := s.r - R_E
  if z < 0 ∧ 10 < stepIdx then
    .done ⟨s.distances, s.altitudes, s.azimuths.map (fun a => a * 180.0 / P.pi),
      s.total_loss_nepers * 8.686, .returns⟩ else
  let n_complex := getRefractiveIndex2D P freq_Hz foF2_at_tx foF2_at_distance tilt_distance
    season z s.x
  let alpha := (omega / (2.0 * lightspeed)) * |2 * n_complex.real * n_complex.imag| /
    max n_complex.real 1e-10
  let dn_dx := dnDxOf P freq_Hz foF2_at_tx foF2_at_distance tilt_distance season z s.x
    n_complex.real
  let sg := sinPsiGoingUp b s.r n_complex.real (n2Real n_complex) s.going_up
  if 1 ≤ |sg.1| ∧ 600 < z ∧ sg.2 = true then
    .done ⟨s.distances, s.altitudes, s.azimuths.map (fun a => a * 180.0 / P.pi),
      s.total_loss_nepers * 8.686, .escapes⟩ else
  let rc := reflectClamp sg.1 sg.2
  if 800 < z ∧ rc.2 = true then
    .done ⟨s.distances, s.altitudes, s.azimuths.map (fun a => a * 180.0 / P.pi),
      s.total_loss_nepers * 8.686, .escapes⟩ else
  let cos_psi := P.sqrt (1 - rc.1 * rc.1)
  let adaptive_step := adaptiveStep n_complex.real rc.1
  let loss2 := s.total_loss_nepers + alpha * (adaptive_step * 1000.0)
  let dphi := dphiOf n_complex.real rc.1 dn_dx adaptive_step
  let d_theta := adaptive_step * rc.1 / s.r
  let r2 := s.r + adaptive_step * cos_psi * dirSign rc.2
  let theta2 := s.theta + d_theta
  let x2 := s.x + |d_theta * R_E|
  let phi2 := s.phi + dphi
  let distances2 := s.distances ++ [theta2 * R_E]
  let altitudes2 := s.altitudes ++ [r2 - R_E]
  let azimuths2 := s.azimuths ++ [phi2]
  if max_distance_km < x2 then
    .done ⟨distances2, altitudes2, azimuths2.map (fun a => a * 180.0 / P.pi),
      loss2 * 8.686, .stops⟩
  else .cont ⟨r2, theta2, x2, phi2, loss2, rc.2, distances2, altitudes2, azimuths2⟩

/-- The traceRay2DWithAbsorption loop. -/
def traceAbs2DLoop (P : Prims) (freq_Hz foF2_at_tx foF2_at_distance tilt_distance : ℚ)
    (season : String) (b max_distance_km : ℚ) : ℕ → ℕ → StA2 → Abs2DResult
  | 0, _, s => ⟨s.distances, s.altitudes, s.azimuths.map (fun a => a * 180.0 / P.pi),
      s.total_loss_nepers * 8.686, .stops⟩
  | fuel + 1, stepIdx, s =>
    match stepAbs2D P freq_Hz foF2_at_tx foF2_at_distance tilt_distance season b
      max_distance_km stepIdx s with
    | .done res => res
    | .cont s2 => traceAbs2DLoop P freq_Hz foF2_at_tx foF2_at_distance tilt_distance season b
        max_distance_km fuel (stepIdx + 1) s2

/-- traceRay2DWithAbsorption: 2D ray tracer with absorption and azimuth. -/
def traceRay2DWithAbsorption (P : Prims) (freq_MHz elevation_deg : ℚ)
    (foF2_at_tx foF2_at_distance tilt_distance max_distance_km : ℚ) (season : String) :
    Abs2DResult :=
  let freq_Hz := freq_MHz * 1e6
  let psi_0 := elevation_deg * P.pi / 180
  let n_0 := (getRefractiveIndex2D P freq_Hz foF2_at_tx foF2_at_distance tilt_distance
    season 0 0).real
  let b := n_0 * R_E * P.sin psi_0
  let max_steps := (⌊max_distance_km / step_km⌋).toNat
  traceAbs2DLoop P freq_Hz foF2_at_tx foF2_at_distance tilt_distance season b max_distance_km
    max_steps 0 traceAbs2DInit

/-- Concrete rational stand-in for the Math primitives, used to evaluate
the embedding on concrete inputs. -/
def toyPrims : Prims where
  sqrt := fun x => if x = 1 then 1 else 0
  exp := fun _ => 1
  sin := fun _ => 0
  cos := fun _ => 1
  atan2 := fun _ _ => 0
  pi := 4

/-- The concrete stand-in primitives satisfy all assumed Math facts. -/
theorem toyPrims_lawful : LawfulPrims toyPrims := by
  constructor <;> intros <;> simp [toyPrims] <;> split <;> norm_num

theorem getLast?_push (l : List ℚ) (a : ℚ) : (l ++ [a]).getLast? = some a := by
  induction l with
  | nil => rfl
  | cons x xs ih =>
    rw [List.cons_append, List.getLast?_cons, ih]
    cases xs <;> simp

theorem head?_push (l : List ℚ) (a b : ℚ) (h : l.head? = some a) :
    (l ++ [b]).head? = some a := by
  cases l with
  | nil => simp at h
  | cons x xs => simp_all

theorem ne_nil_of_head? (l : List ℚ) (a : ℚ) (h : l.head? = some a) : l ≠ [] := by
  intro hn
  subst hn
  simp at h

theorem chain'_push (l : List ℚ) (a b : ℚ) (hc : List.Chain' (· ≤ ·) l)
    (hl : l.getLast? = some a) (hab : a ≤ b) : List.Chain' (· ≤ ·) (l ++ [b]) := by
  rw [List.chain'_append]
  refine ⟨hc, List.chain'_singleton b, ?_⟩
  intro x hx y hy
  rw [hl, Option.mem_some_iff] at hx
  simp only [List.head?_cons, Option.mem_some_iff] at hy
  subst hx
  subst hy
  exact hab

theorem refrReal_nonneg (P : Prims) (hP : LawfulPrims P) (Ne freq_Hz nu : ℚ) :
    0 ≤ (refractiveIndex P Ne freq_Hz nu).real := by
  unfold refractiveIndex
  refine mul_nonneg (hP.sqrt_nonneg _) (hP.cos_nonneg _ ?_)
  rw [abs_div]
  have h2 : |(2.0 : ℚ)| = 2 := by norm_num
  rw [h2]
  exact div_le_div_of_nonneg_right (hP.atan2_bound _ _) (by norm_num) |>.trans_eq rfl

theorem sinPsiGoingUp_fst_nonneg (b r n_real n2 : ℚ) (g : Bool)
    (hb : 0 ≤ b) (hn : 0 ≤ n_real) (hr : 0 ≤ r) :
    0 ≤ (sinPsiGoingUp b r n_real n2 g).1 := by
  unfold sinPsiGoingUp
  split
  · norm_num
  · exact div_nonneg hb (mul_nonneg hn hr)

theorem reflectClamp_fst_nonneg (sp : ℚ) (g : Bool) (h : 0 ≤ sp) :
    0 ≤ (reflectClamp sp g).1 := by
  unfold reflectClamp
  split
  · rename_i hc
    have hsp : 0 < sp := by
      rcases lt_or_eq_of_le h with h1 | h1
      · exact h1
      · exfalso
        rw [← h1] at hc
        norm_num at hc
    simp only [sign, if_pos hsp]
    norm_num
  · exact h

theorem adaptiveStep_pos (n_real sp : ℚ) :
    0 < adaptiveStep n_real sp ∧ adaptiveStep n_real sp ≤ 1 := by
  unfold adaptiveStep step_km
  split <;> norm_num

theorem cosPsi_bounds (P : Prims) (hP : LawfulPrims P) (sp : ℚ) :
    0 ≤ P.sqrt (1 - sp * sp) ∧ P.sqrt (1 - sp * sp) ≤ 1 := by
  refine ⟨hP.sqrt_nonneg _, hP.sqrt_le_one _ ?_⟩
  nlinarith [mul_self_nonneg sp]

theorem advance_bounds (P : Prims) (hP : LawfulPrims P) (nr sp : ℚ) (gu : Bool) :
    -1 ≤ adaptiveStep nr sp * P.sqrt (1 - sp * sp) * dirSign gu ∧
    adaptiveStep nr sp * P.sqrt (1 - sp * sp) * dirSign gu ≤ 1 := by
  have hstep := adaptiveStep_pos nr sp
  have hcos := cosPsi_bounds P hP sp
  unfold dirSign
  split <;> constructor <;> nlinarith [hstep.1, hstep.2, hcos.1, hcos.2]

theorem sinPsiGoingUp_snd_true (b r n_real n2 : ℚ) (g : Bool)
    (h : (sinPsiGoingUp b r n_real n2 g).2 = true) : g = true := by
  unfold sinPsiGoingUp at h
  split at h
  · simp at h
  · dsimp at h
    split at h
    · simp at h
    · exact h

theorem reflectClamp_snd_true (sp : ℚ) (g : Bool)
    (h : (reflectClamp sp g).2 = true) : g = true := by
  unfold reflectClamp at h
  split at h
  · simp at h
  · exact h

theorem chapmanLayer_getD_zero (P : Prims) (zp H : ℚ) :
    ∀ (z : List ℚ) (i : ℕ), (chapmanLayer P z 0 zp H).getD i 0 = 0 := by
  intro z
  induction z with
  | nil => intro i; rfl
  | cons a as ih =>
    intro i
    cases i with
    | zero => simp [chapmanLayer]
    | succ j => simpa [chapmanLayer] using ih j

theorem hF2Of_other (foF2 : ℚ) (s : String) (h1 : s ≠ "winter") (h2 : s ≠ "summer") :
    hF2Of foF2 s = hF2Of foF2 "equinox" := by
  unfold hF2Of
  simp only [h1, h2, if_false,
    (by decide : ("equinox" : String) = "winter" ↔ False),
    (by decide : ("equinox" : String) = "summer" ↔ False), if_neg, ite_false]

theorem F2_scaleOf_other (foF2 : ℚ) (s : String) (h1 : s ≠ "winter") (h2 : s ≠ "summer") :
    F2_scaleOf foF2 s = F2_scaleOf foF2 "equinox" := by
  unfold F2_scaleOf
  simp only [h1, h2, if_false,
    (by decide : ("equinox" : String) = "winter" ↔ False),
    (by decide : ("equinox" : String) = "summer" ↔ False), if_neg, ite_false]

theorem stepPath_spec (P : Prims) (f : ℚ → ℚ) (fH b md : ℚ) (idx : ℕ) (s : St1) :
    (∀ res, stepPath P f fH b md idx s = .done res →
      ((res.distances = s.distances ∧ res.altitudes = s.altitudes) ∨
        (∃ d a, res.distances = s.distances ++ [d] ∧ res.altitudes = s.altitudes ++ [a])) ∧
      (res.status = .escapes → s.going_up = true)) ∧
    (∀ s2, stepPath P f fH b md idx s = .cont s2 →
      (∃ d a, s2.distances = s.distances ++ [d] ∧ s2.altitudes = s.altitudes ++ [a]) ∧
      (s2.going_up = true → s.going_up = true)) := by
  constructor
  · intro res h
    simp only [stepPath] at h
    split_ifs at h with h1 h2 h3 h4
    · injection h with h
      subst h
      exact ⟨Or.inl ⟨rfl, rfl⟩, by simp⟩
    · injection h with h
      subst h
      refine ⟨Or.inl ⟨rfl, rfl⟩, fun _ => ?_⟩
      exact sinPsiGoingUp_snd_true _ _ _ _ _ h2.2.2
    · injection h with h
      subst h
      refine ⟨Or.inl ⟨rfl, rfl⟩, fun _ => ?_⟩
      exact sinPsiGoingUp_snd_true _ _ _ _ _ (reflectClamp_snd_true _ _ h3.2)
    · injection h with h
      subst h
      exact ⟨Or.inr ⟨_, _, rfl, rfl⟩, by simp⟩
  · intro s2 h
    simp only [stepPath] at h
    split_ifs at h with h1 h2 h3 h4
    injection h with h
    subst h
    refine ⟨⟨_, _, rfl, rfl⟩, fun hg => ?_⟩
    exact sinPsiGoingUp_snd_true _ _ _ _ _ (reflectClamp_snd_true _ _ hg)

theorem stepPath_chain (P : Prims) (hP : LawfulPrims P) (f : ℚ → ℚ) (fH b md : ℚ)
    (hb : 0 ≤ b) (idx : ℕ) (s : St1)
    (hc : List.Chain' (· ≤ ·) s.distances)
    (hl : s.distances.getLast? = some (s.theta * R_E))
    (hr : R_E - min (idx : ℚ) 11 ≤ s.r) :
    (∀ res, stepPath P f fH b md idx s = .done res → List.Chain' (· ≤ ·) res.distances) ∧
    (∀ s2, stepPath P f fH b md idx s = .cont s2 →
      List.Chain' (· ≤ ·) s2.distances ∧
      s2.distances.getLast? = some (s2.theta * R_E) ∧
      R_E - min ((idx + 1 : ℕ) : ℚ) 11 ≤ s2.r) := by
  have hR : (0 : ℚ) ≤ R_E := by norm_num [R_E]
  have hrpos : 0 < s.r := by
    have h11 : min (idx : ℚ) 11 ≤ 11 := min_le_right _ _
    have hge : R_E - 11 ≤ s.r := by linarith
    norm_num [R_E] at hge ⊢
    linarith
  constructor
  · intro res h
    simp only [stepPath] at h
    split_ifs at h with h1 h2 h3 h4
    · injection h with h; subst h; exact hc
    · injection h with h; subst h; exact hc
    · injection h with h; subst h; exact hc
    · injection h with h
      subst h
      set nc := refractiveIndex P (trace1D_density f (s.r - R_E)) fH
        (collisionFrequency P (max 0 (s.r - R_E))) with hnc
      set sg := sinPsiGoingUp b s.r nc.real (n2Real nc) s.going_up with hsg
      set rc := reflectClamp sg.1 sg.2 with hrc
      have hn : 0 ≤ nc.real := refrReal_nonneg P hP _ _ _
      have hrc1 : 0 ≤ rc.1 := reflectClamp_fst_nonneg _ _
        (sinPsiGoingUp_fst_nonneg b s.r nc.real (n2Real nc) s.going_up hb hn hrpos.le)
      have hth : s.theta ≤ s.theta + adaptiveStep nc.real rc.1 * rc.1 / s.r := by
        have hstep := adaptiveStep_pos nc.real rc.1
        have hd : 0 ≤ adaptiveStep nc.real rc.1 * rc.1 / s.r :=
          div_nonneg (mul_nonneg hstep.1.le hrc1) hrpos.le
        linarith
      exact chain'_push _ (s.theta * R_E) _ hc hl (mul_le_mul_of_nonneg_right hth hR)
  · intro s2 h
    simp only [stepPath] at h
    split_ifs at h with h1 h2 h3 h4
    injection h with h
    subst h
    set nc := refractiveIndex P (trace1D_density f (s.r - R_E)) fH
      (collisionFrequency P (max 0 (s.r - R_E))) with hnc
    set sg := sinPsiGoingUp b s.r nc.real (n2Real nc) s.going_up with hsg
    set rc := reflectClamp sg.1 sg.2 with hrc
    have hn : 0 ≤ nc.real := refrReal_nonneg P hP _ _ _
    have hrc1 : 0 ≤ rc.1 := reflectClamp_fst_nonneg _ _
      (sinPsiGoingUp_fst_nonneg b s.r nc.real (n2Real nc) s.going_up hb hn hrpos.le)
    have hth : s.theta ≤ s.theta + adaptiveStep nc.real rc.1 * rc.1 / s.r := by
      have hstep := adaptiveStep_pos nc.real rc.1
      have hd : 0 ≤ adaptiveStep nc.real rc.1 * rc.1 / s.r :=
        div_nonneg (mul_nonneg hstep.1.le hrc1) hrpos.le
      linarith
    refine ⟨chain'_push _ (s.theta * R_E) _ hc hl (mul_le_mul_of_nonneg_right hth hR),
      getLast?_push _ _, ?_⟩
    have hadv := advance_bounds P hP nc.real rc.1 rc.2
    by_cases hidx : 10 < idx
    · have hz : ¬ (s.r - R_E < 0) := fun hz => h1 ⟨hz, hidx⟩
      push_neg at hz
      have hmin : (1 : ℚ) ≤ min ((idx + 1 : ℕ) : ℚ) 11 := by
        refine le_min ?_ (by norm_num)
        push_cast
        linarith [Nat.cast_nonneg (α := ℚ) idx]
      dsimp only
      linarith [hadv.1]
    · push_neg at hidx
      have hq : (idx : ℚ) ≤ 10 := by exact_mod_cast hidx
      have hmin1 : min (idx : ℚ) 11 = (idx : ℚ) := min_eq_left (by linarith)
      have hmin2 : min ((idx + 1 : ℕ) : ℚ) 11 = ((idx + 1 : ℕ) : ℚ) := by
        refine min_eq_left ?_
        push_cast
        linarith
      rw [hmin1] at hr
      rw [hmin2]
      push_cast
      linarith [hadv.1]

theorem tracePathLoop_chain (P : Prims) (hP : LawfulPrims P) (f : ℚ → ℚ) (fH b md : ℚ)
    (hb : 0 ≤ b) : ∀ (fuel idx : ℕ) (s : St1),
    List.Chain' (· ≤ ·) s.distances →
    s.distances.getLast? = some (s.theta * R_E) →
    R_E - min (idx : ℚ) 11 ≤ s.r →
    List.Chain' (· ≤ ·) (tracePathLoop P f fH b md fuel idx s).distances := by
  intro fuel
  induction fuel with
  | zero => intro idx s hc hl hr; exact hc
  | succ n ih =>
    intro idx s hc hl hr
    simp only [tracePathLoop]
    split
    · rename_i res heq
      exact (stepPath_chain P hP f fH b md hb idx s hc hl hr).1 res heq
    · rename_i s2 heq
      obtain ⟨hc2, hl2, hr2⟩ := (stepPath_chain P hP f fH b md hb idx s hc hl hr).2 s2 heq
      exact ih (idx + 1) s2 hc2 hl2 hr2

theorem tracePathLoop_arrays (P : Prims) (f : ℚ → ℚ) (fH b md : ℚ) :
    ∀ (fuel idx : ℕ) (s : St1),
    s.distances.length = s.altitudes.length →
    s.distances.head? = some 0 →
    s.altitudes.head? = some 0 →
    (tracePathLoop P f fH b md fuel idx s).distances.length ≤ s.distances.length + fuel ∧
    (tracePathLoop P f fH b md fuel idx s).distances.length =
      (tracePathLoop P f fH b md fuel idx s).altitudes.length ∧
    (tracePathLoop P f fH b md fuel idx s).distances.head? = some 0 ∧
    (tracePathLoop P f fH b md fuel idx s).altitudes.head? = some 0 := by
  intro fuel
  induction fuel with
  | zero => intro idx s hlen hd ha; exact ⟨Nat.le_add_right _ _, hlen, hd, ha⟩
  | succ n ih =>
    intro idx s hlen hd ha
    simp only [tracePathLoop]
    split
    · rename_i res heq
      obtain ⟨hshape, -⟩ := (stepPath_spec P f fH b md idx s).1 res heq
      rcases hshape with ⟨hd2, ha2⟩ | ⟨d, a, hd2, ha2⟩
      · rw [hd2, ha2]
        exact ⟨Nat.le_add_right _ _, hlen, hd, ha⟩
      · rw [hd2, ha2]
        refine ⟨?_, ?_, head?_push _ _ _ hd, head?_push _ _ _ ha⟩
        · simp only [List.length_append, List.length_singleton]
          omega
        · simp only [List.length_append, List.length_singleton, hlen]
    · rename_i s2 heq
      obtain ⟨⟨d, a, hd2, ha2⟩, -⟩ := (stepPath_spec P f fH b md idx s).2 s2 heq
      have hlen2 : s2.distances.length = s2.altitudes.length := by
        rw [hd2, ha2]
        simp [hlen]
      have hd3 : s2.distances.head? = some 0 := hd2 ▸ head?_push _ _ _ hd
      have ha3 : s2.altitudes.head? = some 0 := ha2 ▸ head?_push _ _ _ ha
      obtain ⟨h1, h2, h3, h4⟩ := ih (idx + 1) s2 hlen2 hd3 ha3
      refine ⟨?_, h2, h3, h4⟩
      have : s2.distances.length = s.distances.length + 1 := by
        rw [hd2]
        simp
      omega

theorem stepAbs_spec (P : Prims) (f : ℚ → ℚ) (fH b md : ℚ) (idx : ℕ) (s : StA1) :
    (∀ res, stepAbs P f fH b md idx s = .done res →
      ((res.distances = s.distances ∧ res.altitudes = s.altitudes) ∨
        (∃ d a, res.distances = s.distances ++ [d] ∧ res.altitudes = s.altitudes ++ [a])) ∧
      (res.status = .escapes → s.going_up = true)) ∧
    (∀ s2, stepAbs P f fH b md idx s = .cont s2 →
      (∃ d a, s2.distances = s.distances ++ [d] ∧ s2.altitudes = s.altitudes ++ [a]) ∧
      (s2.going_up = true → s.going_up = true)) := by
  constructor
  · intro res h
    simp only [stepAbs] at h
    split_ifs at h with h1 h2 h3 h4
    · injection h with h
      subst h
      exact ⟨Or.inl ⟨rfl, rfl⟩, by simp⟩
    · injection h with h
      subst h
      refine ⟨Or.inl ⟨rfl, rfl⟩, fun _ => ?_⟩
      exact sinPsiGoingUp_snd_true _ _ _ _ _ h2.2.2
    · injection h with h
      subst h
      refine ⟨Or.inl ⟨rfl, rfl⟩, fun _ => ?_⟩
      exact sinPsiGoingUp_snd_true _ _ _ _ _ (reflectClamp_snd_true _ _ h3.2)
    · injection h with h
      subst h
      exact ⟨Or.inr ⟨_, _, rfl, rfl⟩, by simp⟩
  · intro s2 h
    simp only [stepAbs] at h
    split_ifs at h with h1 h2 h3 h4
    injection h with h
    subst h
    refine ⟨⟨_, _, rfl, rfl⟩, fun hg => ?_⟩
    exact sinPsiGoingUp_snd_true _ _ _ _ _ (reflectClamp_snd_true _ _ hg)

theorem stepAbs_chain (P : Prims) (hP : LawfulPrims P) (f : ℚ → ℚ) (fH b md : ℚ)
    (hb : 0 ≤ b) (idx : ℕ) (s : StA1)
    (hc : List.Chain' (· ≤ ·) s.distances)
    (hl : s.distances.getLast? = some (s.theta * R_E))
    (hr : R_E - min (idx : ℚ) 11 ≤ s.r) :
    (∀ res, stepAbs P f fH b md idx s = .done res → List.Chain' (· ≤ ·) res.distances) ∧
    (∀ s2, stepAbs P f fH b md idx s = .cont s2 →
      List.Chain' (· ≤ ·) s2.distances ∧
      s2.distances.getLast? = some (s2.theta * R_E) ∧
      R_E - min ((idx + 1 : ℕ) : ℚ) 11 ≤ s2.r) := by
  have hR : (0 : ℚ) ≤ R_E := by norm_num [R_E]
  have hrpos : 0 < s.r := by
    have h11 : min (idx : ℚ) 11 ≤ 11 := min_le_right _ _
    have hge : R_E - 11 ≤ s.r := by linarith
    norm_num [R_E] at hge ⊢
    linarith
  constructor
  · intro res h
    simp only [stepAbs] at h
    split_ifs at h with h1 h2 h3 h4
    · injection h with h; subst h; exact hc
    · injection h with h; subst h; exact hc
    · injection h with h; subst h; exact hc
    · injection h with h
      subst h
      set nc := refractiveIndex P (trace1D_density f (s.r - R_E)) fH
        (collisionFrequency P (max 0 (s.r - R_E))) with hnc
      set sg := sinPsiGoingUp b s.r nc.real (n2Real nc) s.going_up with hsg
      set rc := reflectClamp sg.1 sg.2 with hrc
      have hn : 0 ≤ nc.real := refrReal_nonneg P hP _ _ _
      have hrc1 : 0 ≤ rc.1 := reflectClamp_fst_nonneg _ _
        (sinPsiGoingUp_fst_nonneg b s.r nc.real (n2Real nc) s.going_up hb hn hrpos.le)
      have hth : s.theta ≤ s.theta + adaptiveStep nc.real rc.1 * rc.1 / s.r := by
        have hstep := adaptiveStep_pos nc.real rc.1
        have hd : 0 ≤ adaptiveStep nc.real rc.1 * rc.1 / s.r :=
          div_nonneg (mul_nonneg hstep.1.le hrc1) hrpos.le
        linarith
      exact chain'_push _ (s.theta * R_E) _ hc hl (mul_le_mul_of_nonneg_right hth hR)
  · intro s2 h
    simp only [stepAbs] at h
    split_ifs at h with h1 h2 h3 h4
    injection h with h
    subst h
    set nc := refractiveIndex P (trace1D_density f (s.r - R_E)) fH
      (collisionFrequency P (max 0 (s.r - R_E))) with hnc
    set sg := sinPsiGoingUp b s.r nc.real (n2Real nc) s.going_up with hsg
    set rc := reflectClamp sg.1 sg.2 with hrc
    have hn : 0 ≤ nc.real := refrReal_nonneg P hP _ _ _
    have hrc1 : 0 ≤ rc.1 := reflectClamp_fst_nonneg _ _
      (sinPsiGoingUp_fst_nonneg b s.r nc.real (n2Real nc) s.going_up hb hn hrpos.le)
    have hth : s.theta ≤ s.theta + adaptiveStep nc.real rc.1 * rc.1 / s.r := by
      have hstep := adaptiveStep_pos nc.real rc.1
      have hd : 0 ≤ adaptiveStep nc.real rc.1 * rc.1 / s.r :=
        div_nonneg (mul_nonneg hstep.1.le hrc1) hrpos.le
      linarith
    refine ⟨chain'_push _ (s.theta * R_E) _ hc hl (mul_le_mul_of_nonneg_right hth hR),
      getLast?_push _ _, ?_⟩
    have hadv := advance_bounds P hP nc.real rc.1 rc.2
    by_cases hidx : 10 < idx
    · have hz : ¬ (s.r - R_E < 0) := fun hz => h1 ⟨hz, hidx⟩
      push_neg at hz
      have hmin : (1 : ℚ) ≤ min ((idx + 1 : ℕ) : ℚ) 11 := by
        refine le_min ?_ (by norm_num)
        push_cast
        linarith [Nat.cast_nonneg (α := ℚ) idx]
      dsimp only
      linarith [hadv.1]
    · push_neg at hidx
      have hq : (idx : ℚ) ≤ 10 := by exact_mod_cast hidx
      have hmin1 : min (idx : ℚ) 11 = (idx : ℚ) := min_eq_left (by linarith)
      have hmin2 : min ((idx + 1 : ℕ) : ℚ) 11 = ((idx + 1 : ℕ) : ℚ) := by
        refine min_eq_left ?_
        push_cast
        linarith
      rw [hmin1] at hr
      rw [hmin2]
      push_cast
      linarith [hadv.1]

theorem traceAbsLoop_chain (P : Prims) (hP : LawfulPrims P) (f : ℚ → ℚ) (fH b md : ℚ)
    (hb : 0 ≤ b) : ∀ (fuel idx : ℕ) (s : StA1),
    List.Chain' (· ≤ ·) s.distances →
    s.distances.getLast? = some (s.theta * R_E) →
    R_E - min (idx : ℚ) 11 ≤ s.r →
    List.Chain' (· ≤ ·) (traceAbsLoop P f fH b md fuel idx s).distances := by
  intro fuel
  induction fuel with
  | zero => intro idx s hc hl hr; exact hc
  | succ n ih =>
    intro idx s hc hl hr
    simp only [traceAbsLoop]
    split
    · rename_i res heq
      exact (stepAbs_chain P hP f fH b md hb idx s hc hl hr).1 res heq
    · rename_i s2 heq
      obtain ⟨hc2, hl2, hr2⟩ := (stepAbs_chain P hP f fH b md hb idx s hc hl hr).2 s2 heq
      exact ih (idx + 1) s2 hc2 hl2 hr2

theorem traceAbsLoop_arrays (P : Prims) (f : ℚ → ℚ) (fH b md : ℚ) :
    ∀ (fuel idx : ℕ) (s : StA1),
    s.distances.length = s.altitudes.length →
    s.distances.head? = some 0 →
    s.altitudes.head? = some 0 →
    (traceAbsLoop P f fH b md fuel idx s).distances.length ≤ s.distances.length + fuel ∧
    (traceAbsLoop P f fH b md fuel idx s).distances.length =
      (traceAbsLoop P f fH b md fuel idx s).altitudes.length ∧
    (traceAbsLoop P f fH b md fuel idx s).distances.head? = some 0 ∧
    (traceAbsLoop P f fH b md fuel idx s).altitudes.head? = some 0 := by
  intro fuel
  induction fuel with
  | zero => intro idx s hlen hd ha; exact ⟨Nat.le_add_right _ _, hlen, hd, ha⟩
  | succ n ih =>
    intro idx s hlen hd ha
    simp only [traceAbsLoop]
    split
    · rename_i res heq
      obtain ⟨hshape, -⟩ := (stepAbs_spec P f fH b md idx s).1 res heq
      rcases hshape with ⟨hd2, ha2⟩ | ⟨d, a, hd2, ha2⟩
      · rw [hd2, ha2]
        exact ⟨Nat.le_add_right _ _, hlen, hd, ha⟩
      · rw [hd2, ha2]
        refine ⟨?_, ?_, head?_push _ _ _ hd, head?_push _ _ _ ha⟩
        · simp only [List.length_append, List.length_singleton]
          omega
        · simp only [List.length_append, List.length_singleton, hlen]
    · rename_i s2 heq
      obtain ⟨⟨d, a, hd2, ha2⟩, -⟩ := (stepAbs_spec P f fH b md idx s).2 s2 heq
      have hlen2 : s2.distances.length = s2.altitudes.length := by
        rw [hd2, ha2]
        simp [hlen]
      have hd3 : s2.distances.head? = some 0 := hd2 ▸ head?_push _ _ _ hd
      have ha3 : s2.altitudes.head? = some 0 := ha2 ▸ head?_push _ _ _ ha
      obtain ⟨h1, h2, h3, h4⟩ := ih (idx + 1) s2 hlen2 hd3 ha3
      refine ⟨?_, h2, h3, h4⟩
      have : s2.distances.length = s.distances.length + 1 := by
        rw [hd2]
        simp
      omega

theorem head?_map_deg (P : Prims) (l : List ℚ) (h : l.head? = some 0) :
    (l.map (fun a => a * 180.0 / P.pi)).head? = some 0 := by
  rw [List.head?_map, h]
  norm_num

theorem stepTilts_spec (P : Prims) (fH tx rf td : ℚ) (season : String) (b md : ℚ)
    (idx : ℕ) (s : St2) :
    (∀ res, stepTilts P fH tx rf td season b md idx s = .done res →
      ((res.distances = s.distances ∧ res.altitudes = s.altitudes ∧
          res.azimuths = s.azimuths.map (fun a => a * 180.0 / P.pi)) ∨
        (∃ d a p, res.distances = s.distances ++ [d] ∧ res.altitudes = s.altitudes ++ [a] ∧
          res.azimuths = (s.azimuths ++ [p]).map (fun a => a * 180.0 / P.pi))) ∧
      (res.status = .escapes → s.going_up = true)) ∧
    (∀ s2, stepTilts P fH tx rf td season b md idx s = .cont s2 →
      (∃ d a p, s2.distances = s.distances ++ [d] ∧ s2.altitudes = s.altitudes ++ [a] ∧
        s2.azimuths = s.azimuths ++ [p]) ∧
      (s2.going_up = true → s.going_up = true)) := by
  constructor
  · intro res h
    simp only [stepTilts] at h
    split_ifs at h with h1 h2 h3 h4
    · injection h with h
      subst h
      exact ⟨Or.inl ⟨rfl, rfl, rfl⟩, by simp⟩
    · injection h with h
      subst h
      refine ⟨Or.inl ⟨rfl, rfl, rfl⟩, fun _ => ?_⟩
      exact sinPsiGoingUp_snd_true _ _ _ _ _ h2.2.2
    · injection h with h
      subst h
      refine ⟨Or.inl ⟨rfl, rfl, rfl⟩, fun _ => ?_⟩
      exact sinPsiGoingUp_snd_true _ _ _ _ _ (reflectClamp_snd_true _ _ h3.2)
    · injection h with h
      subst h
      exact ⟨Or.inr ⟨_, _, _, rfl, rfl, rfl⟩, by simp⟩
  · intro s2 h
    simp only [stepTilts] at h
    split_ifs at h with h1 h2 h3 h4
    injection h with h
    subst h
    refine ⟨⟨_, _, _, rfl, rfl, rfl⟩, fun hg => ?_⟩
    exact sinPsiGoingUp_snd_true _ _ _ _ _ (reflectClamp_snd_true _ _ hg)

theorem stepTilts_chain (P : Prims) (hP : LawfulPrims P) (fH tx rf td : ℚ) (season : String)
    (b md : ℚ) (hb : 0 ≤ b) (idx : ℕ) (s : St2)
    (hc : List.Chain' (· ≤ ·) s.distances)
    (hl : s.distances.getLast? = some (s.theta * R_E))
    (hr : R_E - min (idx : ℚ) 11 ≤ s.r) :
    (∀ res, stepTilts P fH tx rf td season b md idx s = .done res →
      List.Chain' (· ≤ ·) res.distances) ∧
    (∀ s2, stepTilts P fH tx rf td season b md idx s = .cont s2 →
      List.Chain' (· ≤ ·) s2.distances ∧
      s2.distances.getLast? = some (s2.theta * R_E) ∧
      R_E - min ((idx + 1 : ℕ) : ℚ) 11 ≤ s2.r) := by
  have hR : (0 : ℚ) ≤ R_E := by norm_num [R_E]
  have hrpos : 0 < s.r := by
    have h11 : min (idx : ℚ) 11 ≤ 11 := min_le_right _ _
    have hge : R_E - 11 ≤ s.r := by linarith
    norm_num [R_E] at hge ⊢
    linarith
  constructor
  · intro res h
    simp only [stepTilts] at h
    split_ifs at h with h1 h2 h3 h4
    · injection h with h; subst h; exact hc
    · injection h with h; subst h; exact hc
    · injection h with h; subst h; exact hc
    · injection h with h
      subst h
      set nc := getRefractiveIndex2D P fH tx rf td season (s.r - R_E) s.x with hnc
      set sg := sinPsiGoingUp b s.r nc.real (n2Real nc) s.going_up with hsg
      set rc := reflectClamp sg.1 sg.2 with hrc
      have hn : 0 ≤ nc.real := refrReal_nonneg P hP _ _ _
      have hrc1 : 0 ≤ rc.1 := reflectClamp_fst_nonneg _ _
        (sinPsiGoingUp_fst_nonneg b s.r nc.real (n2Real nc) s.going_up hb hn hrpos.le)
      have hth : s.theta ≤ s.theta + adaptiveStep nc.real rc.1 * rc.1 / s.r := by
        have hstep := adaptiveStep_pos nc.real rc.1
        have hd : 0 ≤ adaptiveStep nc.real rc.1 * rc.1 / s.r :=
          div_nonneg (mul_nonneg hstep.1.le hrc1) hrpos.le
        linarith
      exact chain'_push _ (s.theta * R_E) _ hc hl (mul_le_mul_of_nonneg_right hth hR)
  · intro s2 h
    simp only [stepTilts] at h
    split_ifs at h with h1 h2 h3 h4
    injection h with h
    subst h
    set nc := getRefractiveIndex2D P fH tx rf td season (s.r - R_E) s.x with hnc
    set sg := sinPsiGoingUp b s.r nc.real (n2Real nc) s.going_up with hsg
    set rc := reflectClamp sg.1 sg.2 with hrc
    have hn : 0 ≤ nc.real := refrReal_nonneg P hP _ _ _
    have hrc1 : 0 ≤ rc.1 := reflectClamp_fst_nonneg _ _
      (sinPsiGoingUp_fst_nonneg b s.r nc.real (n2Real nc) s.going_up hb hn hrpos.le)
    have hth : s.theta ≤ s.theta + adaptiveStep nc.real rc.1 * rc.1 / s.r := by
      have hstep := adaptiveStep_pos nc.real rc.1
      have hd : 0 ≤ adaptiveStep nc.real rc.1 * rc.1 / s.r :=
        div_nonneg (mul_nonneg hstep.1.le hrc1) hrpos.le
      linarith
    refine ⟨chain'_push _ (s.theta * R_E) _ hc hl (mul_le_mul_of_nonneg_right hth hR),
      getLast?_push _ _, ?_⟩
    have hadv := advance_bounds P hP nc.real rc.1 rc.2
    by_cases hidx : 10 < idx
    · have hz : ¬ (s.r - R_E < 0) := fun hz => h1 ⟨hz, hidx⟩
      push_neg at hz
      have hmin : (1 : ℚ) ≤ min ((idx + 1 : ℕ) : ℚ) 11 := by
        refine le_min ?_ (by norm_num)
        push_cast
        linarith [Nat.cast_nonneg (α := ℚ) idx]
      dsimp only
      linarith [hadv.1]
    · push_neg at hidx
      have hq : (idx : ℚ) ≤ 10 := by exact_mod_cast hidx
      have hmin1 : min (idx : ℚ) 11 = (idx : ℚ) := min_eq_left (by linarith)
      have hmin2 : min ((idx + 1 : ℕ) : ℚ) 11 = ((idx + 1 : ℕ) : ℚ) := by
        refine min_eq_left ?_
        push_cast
        linarith
      rw [hmin1] at hr
      rw [hmin2]
      push_cast
      linarith [hadv.1]

theorem traceTiltsLoop_chain (P : Prims) (hP : LawfulPrims P) (fH tx rf td : ℚ)
    (season : String) (b md : ℚ) (hb : 0 ≤ b) : ∀ (fuel idx : ℕ) (s : St2),
    List.Chain' (· ≤ ·) s.distances →
    s.distances.getLast? = some (s.theta * R_E) →
    R_E - min (idx : ℚ) 11 ≤ s.r →
    List.Chain' (· ≤ ·) (traceTiltsLoop P fH tx rf td season b md fuel idx s).distances := by
  intro fuel
  induction fuel with
  | zero => intro idx s hc hl hr; exact hc
  | succ n ih =>
    intro idx s hc hl hr
    simp only [traceTiltsLoop]
    split
    · rename_i res heq
      exact (stepTilts_chain P hP fH tx rf td season b md hb idx s hc hl hr).1 res heq
    · rename_i s2 heq
      obtain ⟨hc2, hl2, hr2⟩ :=
        (stepTilts_chain P hP fH tx rf td season b md hb idx s hc hl hr).2 s2 heq
      exact ih (idx + 1) s2 hc2 hl2 hr2

theorem traceTiltsLoop_arrays (P : Prims) (fH tx rf td : ℚ) (season : String) (b md : ℚ) :
    ∀ (fuel idx : ℕ) (s : St2),
    s.distances.length = s.altitudes.length →
    s.distances.length = s.azimuths.length →
    s.distances.head? = some 0 →
    s.altitudes.head? = some 0 →
    s.azimuths.head? = some 0 →
    (traceTiltsLoop P fH tx rf td season b md fuel idx s).distances.length ≤
      s.distances.length + fuel ∧
    (traceTiltsLoop P fH tx rf td season b md fuel idx s).distances.length =
      (traceTiltsLoop P fH tx rf td season b md fuel idx s).altitudes.length ∧
    (traceTiltsLoop P fH tx rf td season b md fuel idx s).distances.length =
      (traceTiltsLoop P fH tx rf td season b md fuel idx s).azimuths.length ∧
    (traceTiltsLoop P fH tx rf td season b md fuel idx s).distances.head? = some 0 ∧
    (traceTiltsLoop P fH tx rf td season b md fuel idx s).altitudes.head? = some 0 ∧
    (traceTiltsLoop P fH tx rf td season b md fuel idx s).azimuths.head? = some 0 := by
  intro fuel
  induction fuel with
  | zero =>
    intro idx s hlen1 hlen2 hd ha hz
    refine ⟨Nat.le_add_right _ _, hlen1, ?_, hd, ha, head?_map_deg P _ hz⟩
    show s.distances.length = (s.azimuths.map _).length
    simpa using hlen2
  | succ n ih =>
    intro idx s hlen1 hlen2 hd ha hz
    simp only [traceTiltsLoop]
    split
    · rename_i res heq
      obtain ⟨hshape, -⟩ := (stepTilts_spec P fH tx rf td season b md idx s).1 res heq
      rcases hshape with ⟨hd2, ha2, hz2⟩ | ⟨d, a, p, hd2, ha2, hz2⟩
      · rw [hd2, ha2, hz2]
        refine ⟨Nat.le_add_right _ _, hlen1, ?_, hd, ha, head?_map_deg P _ hz⟩
        simpa using hlen2
      · rw [hd2, ha2, hz2]
        refine ⟨?_, ?_, ?_, head?_push _ _ _ hd, head?_push _ _ _ ha,
          head?_map_deg P _ (head?_push _ _ _ hz)⟩
        · simp only [List.length_append, List.length_singleton]
          omega
        · simp only [List.length_append, List.length_singleton, hlen1]
        · simp only [List.length_append, List.length_singleton, List.length_map, hlen2]
    · rename_i s2 heq
      obtain ⟨⟨d, a, p, hd2, ha2, hz2⟩, -⟩ :=
        (stepTilts_spec P fH tx rf td season b md idx s).2 s2 heq
      have hlen12 : s2.distances.length = s2.altitudes.length := by
        rw [hd2, ha2]
        simp [hlen1]
      have hlen22 : s2.distances.length = s2.azimuths.length := by
        rw [hd2, hz2]
        simp [hlen2]
      have hd3 : s2.distances.head? = some 0 := hd2 ▸ head?_push _ _ _ hd
      have ha3 : s2.altitudes.head? = some 0 := ha2 ▸ head?_push _ _ _ ha
      have hz3 : s2.azimuths.head? = some 0 := hz2 ▸ head?_push _ _ _ hz
      obtain ⟨h1, h2, h3, h4, h5, h6⟩ := ih (idx + 1) s2 hlen12 hlen22 hd3 ha3 hz3
      refine ⟨?_, h2, h3, h4, h5, h6⟩
      have : s2.distances.length = s.distances.length + 1 := by
        rw [hd2]
        simp
      omega

theorem stepAbs2D_spec (P : Prims) (fH tx rf td : ℚ) (season : String) (b md : ℚ)
    (idx : ℕ) (s : StA2) :
    (∀ res, stepAbs2D P fH tx rf td season b md idx s = .done res →
      ((res.distances = s.distances ∧ res.altitudes = s.altitudes ∧
          res.azimuths = s.azimuths.map (fun a => a * 180.0 / P.pi)) ∨
        (∃ d a p, res.distances = s.distances ++ [d] ∧ res.altitudes = s.altitudes ++ [a] ∧
          res.azimuths = (s.azimuths ++ [p]).map (fun a => a * 180.0 / P.pi))) ∧
      (res.status = .escapes → s.going_up = true)) ∧
    (∀ s2, stepAbs2D P fH tx rf td season b md idx s = .cont s2 →
      (∃ d a p, s2.distances = s.distances ++ [d] ∧ s2.altitudes = s.altitudes ++ [a] ∧
        s2.azimuths = s.azimuths ++ [p]) ∧
      (s2.going_up = true → s.going_up = true)) := by
  constructor
  · intro res h
    simp only [stepAbs2D] at h
    split_ifs at h with h1 h2 h3 h4
    · injection h with h
      subst h
      exact ⟨Or.inl ⟨rfl, rfl, rfl⟩, by simp⟩
    · injection h with h
      subst h
      refine ⟨Or.inl ⟨rfl, rfl, rfl⟩, fun _ => ?_⟩
      exact sinPsiGoingUp_snd_true _ _ _ _ _ h2.2.2
    · injection h with h
      subst h
      refine ⟨Or.inl ⟨rfl, rfl, rfl⟩, fun _ => ?_⟩
      exact sinPsiGoingUp_snd_true _ _ _ _ _ (reflectClamp_snd_true _ _ h3.2)
    · injection h with h
      subst h
      exact ⟨Or.inr ⟨_, _, _, rfl, rfl, rfl⟩, by simp⟩
  · intro s2 h
    simp only [stepAbs2D] at h
    split_ifs at h with h1 h2 h3 h4
    injection h with h
    subst h
    refine ⟨⟨_, _, _, rfl, rfl, rfl⟩, fun hg => ?_⟩
    exact sinPsiGoingUp_snd_true _ _ _ _ _ (reflectClamp_snd_true _ _ hg)

theorem stepAbs2D_chain (P : Prims) (hP : LawfulPrims P) (fH tx rf td : ℚ) (season : String)
    (b md : ℚ) (hb : 0 ≤ b) (idx : ℕ) (s : StA2)
    (hc : List.Chain' (· ≤ ·) s.distances)
    (hl : s.distances.getLast? = some (s.theta * R_E))
    (hr : R_E - min (idx : ℚ) 11 ≤ s.r) :
    (∀ res, stepAbs2D P fH tx rf td season b md idx s = .done res →
      List.Chain' (· ≤ ·) res.distances) ∧
    (∀ s2, stepAbs2D P fH tx rf td season b md idx s = .cont s2 →
      List.Chain' (· ≤ ·) s2.distances ∧
      s2.distances.getLast? = some (s2.theta * R_E) ∧
      R_E - min ((idx + 1 : ℕ) : ℚ) 11 ≤ s2.r) := by
  have hR : (0 : ℚ) ≤ R_E := by norm_num [R_E]
  have hrpos : 0 < s.r := by
    have h11 : min (idx : ℚ) 11 ≤ 11 := min_le_right _ _
    have hge : R_E - 11 ≤ s.r := by linarith
    norm_num [R_E] at hge ⊢
    linarith
  constructor
  · intro res h
    simp only [stepAbs2D] at h
    split_ifs at h with h1 h2 h3 h4
    · injection h with h; subst h; exact hc
    · injection h with h; subst h; exact hc
    · injection h with h; subst h; exact hc
    · injection h with h
      subst h
      set nc := getRefractiveIndex2D P fH tx rf td season (s.r - R_E) s.x with hnc
      set sg := sinPsiGoingUp b s.r nc.real (n2Real nc) s.going_up with hsg
      set rc := reflectClamp sg.1 sg.2 with hrc
      have hn : 0 ≤ nc.real := refrReal_nonneg P hP _ _ _
      have hrc1 : 0 ≤ rc.1 := reflectClamp_fst_nonneg _ _
        (sinPsiGoingUp_fst_nonneg b s.r nc.real (n2Real nc) s.going_up hb hn hrpos.le)
      have hth : s.theta ≤ s.theta + adaptiveStep nc.real rc.1 * rc.1 / s.r := by
        have hstep := adaptiveStep_pos nc.real rc.1
        have hd : 0 ≤ adaptiveStep nc.real rc.1 * rc.1 / s.r :=
          div_nonneg (mul_nonneg hstep.1.le hrc1) hrpos.le
        linarith
      exact chain'_push _ (s.theta * R_E) _ hc hl (mul_le_mul_of_nonneg_right hth hR)
  · intro s2 h
    simp only [stepAbs2D] at h
    split_ifs at h with h1 h2 h3 h4
    injection h with h
    subst h
    set nc := getRefractiveIndex2D P fH tx rf td season (s.r - R_E) s.x with hnc
    set sg := sinPsiGoingUp b s.r nc.real (n2Real nc) s.going_up with hsg
    set rc := reflectClamp sg.1 sg.2 with hrc
    have hn : 0 ≤ nc.real := refrReal_nonneg P hP _ _ _
    have hrc1 : 0 ≤ rc.1 := reflectClamp_fst_nonneg _ _
      (sinPsiGoingUp_fst_nonneg b s.r nc.real (n2Real nc) s.going_up hb hn hrpos.le)
    have hth : s.theta ≤ s.theta + adaptiveStep nc.real rc.1 * rc.1 / s.r := by
      have hstep := adaptiveStep_pos nc.real rc.1
      have hd : 0 ≤ adaptiveStep nc.real rc.1 * rc.1 / s.r :=
        div_nonneg (mul_nonneg hstep.1.le hrc1) hrpos.le
      linarith
    refine ⟨chain'_push _ (s.theta * R_E) _ hc hl (mul_le_mul_of_nonneg_right hth hR),
      getLast?_push _ _, ?_⟩
    have hadv := advance_bounds P hP nc.real rc.1 rc.2
    by_cases hidx : 10 < idx
    · have hz : ¬ (s.r - R_E < 0) := fun hz => h1 ⟨hz, hidx⟩
      push_neg at hz
      have hmin : (1 : ℚ) ≤ min ((idx + 1 : ℕ) : ℚ) 11 := by
        refine le_min ?_ (by norm_num)
        push_cast
        linarith [Nat.cast_nonneg (α := ℚ) idx]
      dsimp only
      linarith [hadv.1]
    · push_neg at hidx
      have hq : (idx : ℚ) ≤ 10 := by exact_mod_cast hidx
      have hmin1 : min (idx : ℚ) 11 = (idx : ℚ) := min_eq_left (by linarith)
      have hmin2 : min ((idx + 1 : ℕ) : ℚ) 11 = ((idx + 1 : ℕ) : ℚ) := by
        refine min_eq_left ?_
        push_cast
        linarith
      rw [hmin1] at hr
      rw [hmin2]
      push_cast
      linarith [hadv.1]

theorem traceAbs2DLoop_chain (P : Prims) (hP : LawfulPrims P) (fH tx rf td : ℚ)
    (season : String) (b md : ℚ) (hb : 0 ≤ b) : ∀ (fuel idx : ℕ) (s : StA2),
    List.Chain' (· ≤ ·) s.distances →
    s.distances.getLast? = some (s.theta * R_E) →
    R_E - min (idx : ℚ) 11 ≤ s.r →
    List.Chain' (· ≤ ·) (traceAbs2DLoop P fH tx rf td season b md fuel idx s).distances := by
  intro fuel
  induction fuel with
  | zero => intro idx s hc hl hr; exact hc
  | succ n ih =>
    intro idx s hc hl hr
    simp only [traceAbs2DLoop]
    split
    · rename_i res heq
      exact (stepAbs2D_chain P hP fH tx rf td season b md hb idx s hc hl hr).1 res heq
    · rename_i s2 heq
      obtain ⟨hc2, hl2, hr2⟩ :=
        (stepAbs2D_chain P hP fH tx rf td season b md hb idx s hc hl hr).2 s2 heq
      exact ih (idx + 1) s2 hc2 hl2 hr2

theorem traceAbs2DLoop_arrays (P : Prims) (fH tx rf td : ℚ) (season : String) (b md : ℚ) :
    ∀ (fuel idx : ℕ) (s : StA2),
    s.distances.length = s.altitudes.length →
    s.distances.length = s.azimuths.length →
    s.distances.head? = some 0 →
    s.altitudes.head? = some 0 →
    s.azimuths.head? = some 0 →
    (traceAbs2DLoop P fH tx rf td season b md fuel idx s).distances.length ≤
      s.distances.length + fuel ∧
    (traceAbs2DLoop P fH tx rf td season b md fuel idx s).distances.length =
      (traceAbs2DLoop P fH tx rf td season b md fuel idx s).altitudes.length ∧
    (traceAbs2DLoop P fH tx rf td season b md fuel idx s).distances.length =
      (traceAbs2DLoop P fH tx rf td season b md fuel idx s).azimuths.length ∧
    (traceAbs2DLoop P fH tx rf td season b md fuel idx s).distances.head? = some 0 ∧
    (traceAbs2DLoop P fH tx rf td season b md fuel idx s).altitudes.head? = some 0 ∧
    (traceAbs2DLoop P fH tx rf td season b md fuel idx s).azimuths.head? = some 0 := by
  intro fuel
  induction fuel with
  | zero =>
    intro idx s hlen1 hlen2 hd ha hz
    refine ⟨Nat.le_add_right _ _, hlen1, ?_, hd, ha, head?_map_deg P _ hz⟩
    show s.distances.length = (s.azimuths.map _).length
    simpa using hlen2
  | succ n ih =>
    intro idx s hlen1 hlen2 hd ha hz
    simp only [traceAbs2DLoop]
    split
    · rename_i res heq
      obtain ⟨hshape, -⟩ := (stepAbs2D_spec P fH tx rf td season b md idx s).1 res heq
      rcases hshape with ⟨hd2, ha2, hz2⟩ | ⟨d, a, p, hd2, ha2, hz2⟩
      · rw [hd2, ha2, hz2]
        refine ⟨Nat.le_add_right _ _, hlen1, ?_, hd, ha, head?_map_deg P _ hz⟩
        simpa using hlen2
      · rw [hd2, ha2, hz2]
        refine ⟨?_, ?_, ?_, head?_push _ _ _ hd, head?_push _ _ _ ha,
          head?_map_deg P _ (head?_push _ _ _ hz)⟩
        · simp only [List.length_append, List.length_singleton]
          omega
        · simp only [List.length_append, List.length_singleton, hlen1]
        · simp only [List.length_append, List.length_singleton, List.length_map, hlen2]
    · rename_i s2 heq
      obtain ⟨⟨d, a, p, hd2, ha2, hz2⟩, -⟩ :=
        (stepAbs2D_spec P fH tx rf td season b md idx s).2 s2 heq
      have hlen12 : s2.distances.length = s2.altitudes.length := by
        rw [hd2, ha2]
        simp [hlen1]
      have hlen22 : s2.distances.length = s2.azimuths.length := by
        rw [hd2, hz2]
        simp [hlen2]
      have hd3 : s2.distances.head? = some 0 := hd2 ▸ head?_push _ _ _ hd
      have ha3 : s2.altitudes.head? = some 0 := ha2 ▸ head?_push _ _ _ ha
      have hz3 : s2.azimuths.head? = some 0 := hz2 ▸ head?_push _ _ _ hz
      obtain ⟨h1, h2, h3, h4, h5, h6⟩ := ih (idx + 1) s2 hlen12 hlen22 hd3 ha3 hz3
      refine ⟨?_, h2, h3, h4, h5, h6⟩
      have : s2.distances.length = s.distances.length + 1 := by
        rw [hd2]
        simp
      omega

theorem launch_b_nonneg (P : Prims) (hP : LawfulPrims P) (n0 elevation_deg : ℚ)
    (hn0 : 0 ≤ n0) (h0 : 0 < elevation_deg) (h90 : elevation_deg < 90) :
    0 ≤ n0 * R_E * P.sin (elevation_deg * P.pi / 180) := by
  have hpi := hP.pi_pos
  have hpsi0 : 0 ≤ elevation_deg * P.pi / 180 := by positivity
  have hpsi1 : elevation_deg * P.pi / 180 ≤ P.pi / 2 := by
    have hm : elevation_deg * P.pi ≤ 90 * P.pi := by nlinarith
    have : elevation_deg * P.pi / 180 ≤ 90 * P.pi / 180 := by linarith
    calc elevation_deg * P.pi / 180 ≤ 90 * P.pi / 180 := this
      _ = P.pi / 2 := by ring
  exact mul_nonneg (mul_nonneg hn0 (by norm_num [R_E])) (hP.sin_nonneg _ hpsi0 hpsi1)

/-- C1 (counterexample): the claim states that in all four tracer variants the
electron density used in the step loop is 0 when z > 600 km.  In the 1D
tracers the density query (`const Ne = z >= 0 ? ionosphere_func(z) : 0`,
embedded as trace1D_density, used at every loop iteration of
traceRaySphericalWithPath and traceRayWithAbsorption) has no upper cutoff:
at z = 700 km with a density function that is 1 everywhere it uses 1, not 0. -/
theorem density_cap_counterexample : trace1D_density (fun _ => 1) 700 ≠ 0 := by
  norm_num [trace1D_density]

/-- C1 (amended): the density used by the step loops is 0 for z < 0 and the
density-function value for z ∈ [0,600] in all four variants; above 600 km it
is 0 only in the 2D variants, while the 1D variants keep using the
density-function value.  The last conjunct records that the 2D tracers query
density through getRefractiveIndex2D, whose density is trace2D_density. -/
theorem density_query_windows (P : Prims) (ionosphere_func : ℚ → ℚ)
    (freq_Hz foF2_at_tx foF2_at_distance tilt_distance : ℚ) (season : String) (z x : ℚ) :
    (z < 0 → trace1D_density ionosphere_func z = 0) ∧
    (0 ≤ z → trace1D_density ionosphere_func z = ionosphere_func z) ∧
    (z < 0 ∨ 600 < z →
      trace2D_density P foF2_at_tx foF2_at_distance tilt_distance season z x = 0) ∧
    (0 ≤ z → z ≤ 600 →
      trace2D_density P foF2_at_tx foF2_at_distance tilt_distance season z x =
        electronDensity2DSingle P z x foF2_at_tx foF2_at_distance tilt_distance season) ∧
    (getRefractiveIndex2D P freq_Hz foF2_at_tx foF2_at_distance tilt_distance season z x =
      refractiveIndex P (trace2D_density P foF2_at_tx foF2_at_distance tilt_distance season z x)
        freq_Hz (collisionFrequency P (max 0 z))) := by
  refine ⟨?_, ?_, ?_, ?_, rfl⟩
  · intro h
    rw [trace1D_density, if_neg (not_le.mpr h)]
  · intro h
    rw [trace1D_density, if_pos h]
  · intro h
    rw [trace2D_density, if_neg]
    rcases h with h | h
    · exact fun hc => absurd hc.1 (not_le.mpr h)
    · exact fun hc => absurd hc.2 (not_le.mpr h)
  · intro h1 h2
    rw [trace2D_density, if_pos ⟨h1, h2⟩]

/-- C1 (witness): the amended statement evaluated at concrete inputs. -/
theorem density_query_windows_witness :
    trace1D_density (fun _ => (2 : ℚ)) (-5) = 0 ∧
    trace2D_density toyPrims 15 4 3000 "equinox" 700 100 = 0 :=
  ⟨(density_query_windows toyPrims (fun _ => 2) 1 15 4 3000 "equinox" (-5) 100).1
      (by norm_num),
   (density_query_windows toyPrims (fun _ => 2) 1 15 4 3000 "equinox" 700 100).2.2.1
      (Or.inr (by norm_num))⟩

/-- C2: the claim says calls with non-positive frequency or elevation outside
(0,90) degrees fail fast with a descriptive error.  The source contains no
input validation and no throw: a call with freq_MHz = -1 and
elevation_deg = 120 runs the ordinary integration loop and returns a normal
RayTraceResult (status stops, three path samples), silently proceeding, in
both the 1D and the 2D tracer. -/
theorem invalid_input_no_error :
    traceRaySphericalWithPath toyPrims (-1) 120 (fun _ => 0) 2 =
      ⟨[0, 0, 0], [0, 1, 2], .stops⟩ ∧
    (traceRay2DWithTilts toyPrims (-1) 120 15 4 3000 2 "equinox").status = .stops := by
  with_unfolding_all decide

/-- C4: with zero electron density (vacuum), the refractive index is exactly
1 + 0i for any positive frequency and collision frequency. -/
theorem refractiveIndex_vacuum (P : Prims) (hP : LawfulPrims P) (freq_Hz nu : ℚ)
    (hf : 0 < freq_Hz) (hnu : 0 < nu) : refractiveIndex P 0 freq_Hz nu = ⟨1, 0⟩ := by
  unfold refractiveIndex plasmaFrequencyFromNe
  norm_num [hP.sqrt_zero, hP.sqrt_one, hP.atan2_zero_one, hP.cos_zero, hP.sin_zero]

/-- C4 (witness): the vacuum case evaluated at f = 7 Hz, nu = 3 Hz. -/
theorem refractiveIndex_vacuum_witness : refractiveIndex toyPrims 0 7 3 = ⟨1, 0⟩ :=
  refractiveIndex_vacuum toyPrims toyPrims_lawful 7 3 (by norm_num) (by norm_num)

/-- C5: the real part of the refractive index is non-negative for
non-negative density, positive frequency and non-negative collision
frequency, because the principal complex square root is taken via magnitude
and half-angle phase. -/
theorem refractiveIndex_real_nonneg (P : Prims) (hP : LawfulPrims P) (Ne freq_Hz nu : ℚ)
    (hNe : 0 ≤ Ne) (hf : 0 < freq_Hz) (hnu : 0 ≤ nu) :
    0 ≤ (refractiveIndex P Ne freq_Hz nu).real :=
  refrReal_nonneg P hP Ne freq_Hz nu

/-- C5 (witness): the non-negativity at Ne = 5, f = 7, nu = 3. -/
theorem refractiveIndex_real_nonneg_witness : 0 ≤ (refractiveIndex toyPrims 5 7 3).real :=
  refractiveIndex_real_nonneg toyPrims toyPrims_lawful 5 7 3 (by norm_num) (by norm_num)
    (by norm_num)

/-- C6: any season string other than winter and summer produces exactly the
electron densities of equinox (the code tests only season === 'winter' and
season === 'summer', so every other value falls into the equinox branches). -/
theorem season_defaults_to_equinox (P : Prims) (z : List ℚ) (foF2 : ℚ) (season : String)
    (h1 : season ≠ "winter") (h2 : season ≠ "summer") :
    makeIonosphereForFoF2 P z foF2 season = makeIonosphereForFoF2 P z foF2 "equinox" := by
  unfold makeIonosphereForFoF2
  rw [hF2Of_other foF2 season h1 h2, F2_scaleOf_other foF2 season h1 h2]

/-- C6 (witness): an unrecognized season string at concrete inputs. -/
theorem season_defaults_to_equinox_witness :
    makeIonosphereForFoF2 toyPrims [100, 300] 6 "autumn" =
      makeIonosphereForFoF2 toyPrims [100, 300] 6 "equinox" :=
  season_defaults_to_equinox toyPrims [100, 300] 6 "autumn" (by decide) (by decide)

/-- C7: at foF2 = 4.0 MHz (night regime) the D and F1 strength factors are
exactly 0, both layers contribute exactly zero density at every altitude,
and the total profile is the sum of only the E and F2 Chapman evaluations. -/
theorem night_D_F1_vanish (P : Prims) (z : List ℚ) (season : String) :
    D_factorOf 4.0 = 0 ∧ F1_factorOf 4.0 = 0 ∧
    (∀ i : ℕ, (chapmanLayer P z (1.5e9 * D_factorOf 4.0) 75.0 8.0).getD i 0 = 0) ∧
    (∀ i : ℕ, (chapmanLayer P z (6e11 * F1_factorOf 4.0) 190.0 30.0).getD i 0 = 0) ∧
    makeIonosphereForFoF2 P z 4.0 season =
      z.enum.map (fun p =>
        (chapmanLayer P z (8e10 * E_factorOf 4.0) 110.0 15.0).getD p.1 0 +
        (chapmanLayer P z ((4.0 * 1e6 / 8.98) ^ 2) (hF2Of 4.0 season)
          (F2_scaleOf 4.0 season)).getD p.1 0) := by
  have hD : D_factorOf 4.0 = 0 := by norm_num [D_factorOf]
  have hF1 : F1_factorOf 4.0 = 0 := by norm_num [F1_factorOf]
  have hDz : ∀ i : ℕ, (chapmanLayer P z (1.5e9 * D_factorOf 4.0) 75.0 8.0).getD i 0 = 0 := by
    intro i
    rw [hD, mul_zero]
    exact chapmanLayer_getD_zero P 75.0 8.0 z i
  have hF1z : ∀ i : ℕ, (chapmanLayer P z (6e11 * F1_factorOf 4.0) 190.0 30.0).getD i 0 = 0 := by
    intro i
    rw [hF1, mul_zero]
    exact chapmanLayer_getD_zero P 190.0 30.0 z i
  refine ⟨hD, hF1, hDz, hF1z, ?_⟩
  unfold makeIonosphereForFoF2
  refine List.map_congr_left ?_
  intro p _
  rw [hDz p.1, hF1z p.1]
  ring

theorem getRefr2D_real_nonneg (P : Prims) (hP : LawfulPrims P)
    (fH tx rf td : ℚ) (season : String) (z x : ℚ) :
    0 ≤ (getRefractiveIndex2D P fH tx rf td season z x).real := by
  unfold getRefractiveIndex2D
  exact refrReal_nonneg P hP _ _ _

/-- C3: for every trace launched with elevation_deg in (0,90), the distances
sequence of the returned result is non-decreasing, in all four tracers.  The
per-step angular advance is adaptive_step·sin_psi/r with sin_psi ≥ 0 (the
conserved parameter b is non-negative at such launch angles and Re(n) ≥ 0 by
the principal square root) and r > 0, hence theta, and with it every
recorded distance theta·R_E, never decreases. -/
theorem distances_nonDecreasing (P : Prims) (hP : LawfulPrims P)
    (freq_MHz elevation_deg max_distance_km : ℚ) (ionosphere_func : ℚ → ℚ)
    (foF2_at_tx foF2_at_distance tilt_distance : ℚ) (season : String)
    (h0 : 0 < elevation_deg) (h90 : elevation_deg < 90) :
    List.Chain' (· ≤ ·)
      (traceRaySphericalWithPath P freq_MHz elevation_deg ionosphere_func
        max_distance_km).distances ∧
    List.Chain' (· ≤ ·)
      (traceRayWithAbsorption P freq_MHz elevation_deg ionosphere_func
        max_distance_km).distances ∧
    List.Chain' (· ≤ ·)
      (traceRay2DWithTilts P freq_MHz elevation_deg foF2_at_tx foF2_at_distance
        tilt_distance max_distance_km season).distances ∧
    List.Chain' (· ≤ ·)
      (traceRay2DWithAbsorption P freq_MHz elevation_deg foF2_at_tx foF2_at_distance
        tilt_distance max_distance_km season).distances := by
  have hinitc : List.Chain' (· ≤ ·) ([0] : List ℚ) := List.chain'_singleton 0
  have hinitl : ([0] : List ℚ).getLast? = some (0 * R_E) := by simp
  have hinitr : R_E - min ((0 : ℕ) : ℚ) 11 ≤ R_E := by norm_num
  refine ⟨?_, ?_, ?_, ?_⟩
  · simp only [traceRaySphericalWithPath]
    exact tracePathLoop_chain P hP _ _ _ _
      (launch_b_nonneg P hP _ _ (refrReal_nonneg P hP _ _ _) h0 h90)
      _ _ _ hinitc hinitl hinitr
  · simp only [traceRayWithAbsorption]
    exact traceAbsLoop_chain P hP _ _ _ _
      (launch_b_nonneg P hP _ _ (refrReal_nonneg P hP _ _ _) h0 h90)
      _ _ _ hinitc hinitl hinitr
  · simp only [traceRay2DWithTilts]
    exact traceTiltsLoop_chain P hP _ _ _ _ _ _ _
      (launch_b_nonneg P hP _ _ (getRefr2D_real_nonneg P hP _ _ _ _ _ _ _) h0 h90)
      _ _ _ hinitc hinitl hinitr
  · simp only [traceRay2DWithAbsorption]
    exact traceAbs2DLoop_chain P hP _ _ _ _ _ _ _
      (launch_b_nonneg P hP _ _ (getRefr2D_real_nonneg P hP _ _ _ _ _ _ _) h0 h90)
      _ _ _ hinitc hinitl hinitr

/-- C3 (witness): a concrete launch inside (0,90) degrees. -/
theorem distances_nonDecreasing_witness :
    (0 : ℚ) < 30 ∧ (30 : ℚ) < 90 ∧
    List.Chain' (· ≤ ·)
      (traceRaySphericalWithPath toyPrims 14 30 (fun _ => 0) 100).distances :=
  ⟨by norm_num, by norm_num,
   (distances_nonDecreasing toyPrims toyPrims_lawful 14 30 100 (fun _ => 0) 15 4 3000
      "equinox" (by norm_num) (by norm_num)).1⟩

/-- C8: every tracer is driven by exactly ⌊max_distance_km / step_km⌋ units
of loop fuel; each iteration appends at most one path sample, so the result
carries at most that bound plus the initial sample; and a loop whose fuel is
exhausted without another terminal condition returns status stops.  For the
default max_distance_km = 10000 with step_km = 1 the bound is 10000. -/
theorem iteration_bound_and_stops (P : Prims)
    (freq_MHz elevation_deg max_distance_km : ℚ) (ionosphere_func : ℚ → ℚ)
    (foF2_at_tx foF2_at_distance tilt_distance : ℚ) (season : String) :
    (traceRaySphericalWithPath P freq_MHz elevation_deg ionosphere_func
        max_distance_km).distances.length ≤ (⌊max_distance_km / step_km⌋).toNat + 1 ∧
    (traceRayWithAbsorption P freq_MHz elevation_deg ionosphere_func
        max_distance_km).distances.length ≤ (⌊max_distance_km / step_km⌋).toNat + 1 ∧
    (traceRay2DWithTilts P freq_MHz elevation_deg foF2_at_tx foF2_at_distance
        tilt_distance max_distance_km season).distances.length ≤
      (⌊max_distance_km / step_km⌋).toNat + 1 ∧
    (traceRay2DWithAbsorption P freq_MHz elevation_deg foF2_at_tx foF2_at_distance
        tilt_distance max_distance_km season).distances.length ≤
      (⌊max_distance_km / step_km⌋).toNat + 1 ∧
    (∀ (fH b : ℚ) (idx : ℕ) (s : St1),
      tracePathLoop P ionosphere_func fH b max_distance_km 0 idx s =
        ⟨s.distances, s.altitudes, .stops⟩) ∧
    (∀ (fH b : ℚ) (idx : ℕ) (s : StA1),
      traceAbsLoop P ionosphere_func fH b max_distance_km 0 idx s =
        ⟨s.distances, s.altitudes, s.total_loss_nepers * 8.686, .stops⟩) ∧
    (∀ (fH b : ℚ) (idx : ℕ) (s : St2),
      traceTiltsLoop P fH foF2_at_tx foF2_at_distance tilt_distance season b
          max_distance_km 0 idx s =
        ⟨s.distances, s.altitudes, s.azimuths.map (fun a => a * 180.0 / P.pi), .stops⟩) ∧
    (∀ (fH b : ℚ) (idx : ℕ) (s : StA2),
      traceAbs2DLoop P fH foF2_at_tx foF2_at_distance tilt_distance season b
          max_distance_km 0 idx s =
        ⟨s.distances, s.altitudes, s.azimuths.map (fun a => a * 180.0 / P.pi),
          s.total_loss_nepers * 8.686, .stops⟩) ∧
    (⌊(10000 : ℚ) / step_km⌋).toNat = 10000 := by
  refine ⟨?_, ?_, ?_, ?_, fun _ _ _ _ => rfl, fun _ _ _ _ => rfl, fun _ _ _ _ => rfl,
    fun _ _ _ _ => rfl, ?_⟩
  · simp only [traceRaySphericalWithPath]
    exact le_trans
      (tracePathLoop_arrays P ionosphere_func _ _ max_distance_km
        ((⌊max_distance_km / step_km⌋).toNat) 0 tracePathInit rfl rfl rfl).1
      (by show (1 : ℕ) + _ ≤ _ + 1; omega)
  · simp only [traceRayWithAbsorption]
    exact le_trans
      (traceAbsLoop_arrays P ionosphere_func _ _ max_distance_km
        ((⌊max_distance_km / step_km⌋).toNat) 0 traceAbsInit rfl rfl rfl).1
      (by show (1 : ℕ) + _ ≤ _ + 1; omega)
  · simp only [traceRay2DWithTilts]
    exact le_trans
      (traceTiltsLoop_arrays P _ foF2_at_tx foF2_at_distance tilt_distance season _
        max_distance_km ((⌊max_distance_km / step_km⌋).toNat) 0 traceTiltsInit
        rfl rfl rfl rfl rfl).1
      (by show (1 : ℕ) + _ ≤ _ + 1; omega)
  · simp only [traceRay2DWithAbsorption]
    exact le_trans
      (traceAbs2DLoop_arrays P _ foF2_at_tx foF2_at_distance tilt_distance season _
        max_distance_km ((⌊max_distance_km / step_km⌋).toNat) 0 traceAbs2DInit
        rfl rfl rfl rfl rfl).1
      (by show (1 : ℕ) + _ ≤ _ + 1; omega)
  · have hfl : ⌊(10000 : ℚ) / step_km⌋ = 10000 := by norm_num [step_km]
    rw [hfl]
    rfl

/-- C9: in every tracer the going_up flag starts true, one step never turns
it back from false to true (if the next state is ascending, the previous one
was), and a step can only produce the escapes status when the ray was still
ascending when the step began. -/
theorem goingUp_monotone (P : Prims) (f : ℚ → ℚ)
    (fH tx rf td b md : ℚ) (season : String) (idx : ℕ)
    (s1 : St1) (sa : StA1) (s2 : St2) (sb : StA2) :
    tracePathInit.going_up = true ∧ traceAbsInit.going_up = true ∧
    traceTiltsInit.going_up = true ∧ traceAbs2DInit.going_up = true ∧
    (∀ t, stepPath P f fH b md idx s1 = .cont t →
      t.going_up = true → s1.going_up = true) ∧
    (∀ res, stepPath P f fH b md idx s1 = .done res →
      res.status = .escapes → s1.going_up = true) ∧
    (∀ t, stepAbs P f fH b md idx sa = .cont t →
      t.going_up = true → sa.going_up = true) ∧
    (∀ res, stepAbs P f fH b md idx sa = .done res →
      res.status = .escapes → sa.going_up = true) ∧
    (∀ t, stepTilts P fH tx rf td season b md idx s2 = .cont t →
      t.going_up = true → s2.going_up = true) ∧
    (∀ res, stepTilts P fH tx rf td season b md idx s2 = .done res →
      res.status = .escapes → s2.going_up = true) ∧
    (∀ t, stepAbs2D P fH tx rf td season b md idx sb = .cont t →
      t.going_up = true → sb.going_up = true) ∧
    (∀ res, stepAbs2D P fH tx rf td season b md idx sb = .done res →
      res.status = .escapes → sb.going_up = true) :=
  ⟨rfl, rfl, rfl, rfl,
   fun t ht => ((stepPath_spec P f fH b md idx s1).2 t ht).2,
   fun res hres => ((stepPath_spec P f fH b md idx s1).1 res hres).2,
   fun t ht => ((stepAbs_spec P f fH b md idx sa).2 t ht).2,
   fun res hres => ((stepAbs_spec P f fH b md idx sa).1 res hres).2,
   fun t ht => ((stepTilts_spec P fH tx rf td season b md idx s2).2 t ht).2,
   fun res hres => ((stepTilts_spec P fH tx rf td season b md idx s2).1 res hres).2,
   fun t ht => ((stepAbs2D_spec P fH tx rf td season b md idx sb).2 t ht).2,
   fun res hres => ((stepAbs2D_spec P fH tx rf td season b md idx sb).1 res hres).2⟩

/-- C9 (witness): one concrete step of the 1D path tracer, continuing
upward, with the monotonicity implication instantiated on it. -/
theorem goingUp_monotone_witness :
    stepPath toyPrims (fun _ => 0) 1000000 0 10000 0 tracePathInit =
      .cont ⟨6372, 0, true, [0, 0], [0, 1]⟩ ∧
    ((⟨6372, 0, true, [0, 0], [0, 1]⟩ : St1).going_up = true →
      tracePathInit.going_up = true) :=
  ⟨by with_unfolding_all rfl,
   (goingUp_monotone toyPrims (fun _ => 0) 1000000 15 4 3000 0 10000 "equinox" 0
      tracePathInit traceAbsInit traceTiltsInit traceAbs2DInit).2.2.2.2.1
     ⟨6372, 0, true, [0, 0], [0, 1]⟩ (by with_unfolding_all rfl)⟩

/-- C10: every result of every tracer carries distances and altitudes arrays
(and azimuths in the 2D variants) of equal length, non-empty, and beginning
with the sample 0.0, because the initial state holds one zero sample per
array and every completed integration step appends one entry to each array
together. -/
theorem result_arrays_aligned (P : Prims)
    (freq_MHz elevation_deg max_distance_km : ℚ) (ionosphere_func : ℚ → ℚ)
    (foF2_at_tx foF2_at_distance tilt_distance : ℚ) (season : String) :
    ((traceRaySphericalWithPath P freq_MHz elevation_deg ionosphere_func
        max_distance_km).distances.length =
      (traceRaySphericalWithPath P freq_MHz elevation_deg ionosphere_func
        max_distance_km).altitudes.length ∧
     (traceRaySphericalWithPath P freq_MHz elevation_deg ionosphere_func
        max_distance_km).distances ≠ [] ∧
     (traceRaySphericalWithPath P freq_MHz elevation_deg ionosphere_func
        max_distance_km).distances.head? = some 0 ∧
     (traceRaySphericalWithPath P freq_MHz elevation_deg ionosphere_func
        max_distance_km).altitudes.head? = some 0) ∧
    ((traceRayWithAbsorption P freq_MHz elevation_deg ionosphere_func
        max_distance_km).distances.length =
      (traceRayWithAbsorption P freq_MHz elevation_deg ionosphere_func
        max_distance_km).altitudes.length ∧
     (traceRayWithAbsorption P freq_MHz elevation_deg ionosphere_func
        max_distance_km).distances ≠ [] ∧
     (traceRayWithAbsorption P freq_MHz elevation_deg ionosphere_func
        max_distance_km).distances.head? = some 0 ∧
     (traceRayWithAbsorption P freq_MHz elevation_deg ionosphere_func
        max_distance_km).altitudes.head? = some 0) ∧
    ((traceRay2DWithTilts P freq_MHz elevation_deg foF2_at_tx foF2_at_distance
        tilt_distance max_distance_km season).distances.length =
      (traceRay2DWithTilts P freq_MHz elevation_deg foF2_at_tx foF2_at_distance
        tilt_distance max_distance_km season).altitudes.length ∧
     (traceRay2DWithTilts P freq_MHz elevation_deg foF2_at_tx foF2_at_distance
        tilt_distance max_distance_km season).distances.length =
      (traceRay2DWithTilts P freq_MHz elevation_deg foF2_at_tx foF2_at_distance
        tilt_distance max_distance_km season).azimuths.length ∧
     (traceRay2DWithTilts P freq_MHz elevation_deg foF2_at_tx foF2_at_distance
        tilt_distance max_distance_km season).distances ≠ [] ∧
     (traceRay2DWithTilts P freq_MHz elevation_deg foF2_at_tx foF2_at_distance
        tilt_distance max_distance_km season).distances.head? = some 0 ∧
     (traceRay2DWithTilts P freq_MHz elevation_deg foF2_at_tx foF2_at_distance
        tilt_distance max_distance_km season).altitudes.head? = some 0 ∧
     (traceRay2DWithTilts P freq_MHz elevation_deg foF2_at_tx foF2_at_distance
        tilt_distance max_distance_km season).azimuths.head? = some 0) ∧
    ((traceRay2DWithAbsorption P freq_MHz elevation_deg foF2_at_tx foF2_at_distance
        tilt_distance max_distance_km season).distances.length =
      (traceRay2DWithAbsorption P freq_MHz elevation_deg foF2_at_tx foF2_at_distance
        tilt_distance max_distance_km season).altitudes.length ∧
     (traceRay2DWithAbsorption P freq_MHz elevation_deg foF2_at_tx foF2_at_distance
        tilt_distance max_distance_km season).distances.length =
      (traceRay2DWithAbsorption P freq_MHz elevation_deg foF2_at_tx foF2_at_distance
        tilt_distance max_distance_km season).azimuths.length ∧
     (traceRay2DWithAbsorption P freq_MHz elevation_deg foF2_at_tx foF2_at_distance
        tilt_distance max_distance_km season).distances ≠ [] ∧
     (traceRay2DWithAbsorption P freq_MHz elevation_deg foF2_at_tx foF2_at_distance
        tilt_distance max_distance_km season).distances.head? = some 0 ∧
     (traceRay2DWithAbsorption P freq_MHz elevation_deg foF2_at_tx foF2_at_distance
        tilt_distance max_distance_km season).altitudes.head? = some 0 ∧
     (traceRay2DWithAbsorption P freq_MHz elevation_deg foF2_at_tx foF2_at_distance
        tilt_distance max_distance_km season).azimuths.head? = some 0) := by
  refine ⟨?_, ?_, ?_, ?_⟩
  · simp only [traceRaySphericalWithPath]
    obtain ⟨-, h2, h3, h4⟩ := tracePathLoop_arrays P ionosphere_func _ _ max_distance_km
      ((⌊max_distance_km / step_km⌋).toNat) 0 tracePathInit rfl rfl rfl
    exact ⟨h2, ne_nil_of_head? _ _ h3, h3, h4⟩
  · simp only [traceRayWithAbsorption]
    obtain ⟨-, h2, h3, h4⟩ := traceAbsLoop_arrays P ionosphere_func _ _ max_distance_km
      ((⌊max_distance_km / step_km⌋).toNat) 0 traceAbsInit rfl rfl rfl
    exact ⟨h2, ne_nil_of_head? _ _ h3, h3, h4⟩
  · simp only [traceRay2DWithTilts]
    obtain ⟨-, h2, h3, h4, h5, h6⟩ := traceTiltsLoop_arrays P _ foF2_at_tx foF2_at_distance
      tilt_distance season _ max_distance_km ((⌊max_distance_km / step_km⌋).toNat) 0
      traceTiltsInit rfl rfl rfl rfl rfl
    exact ⟨h2, h3, ne_nil_of_head? _ _ h4, h4, h5, h6⟩
  · simp only [traceRay2DWithAbsorption]
    obtain ⟨-, h2, h3, h4, h5, h6⟩ := traceAbs2DLoop_arrays P _ foF2_at_tx foF2_at_distance
      tilt_distance season _ max_distance_km ((⌊max_distance_km / step_km⌋).toNat) 0
      traceAbs2DInit rfl rfl rfl rfl rfl
    exact ⟨h2, h3, ne_nil_of_head? _ _ h4, h4, h5, h6⟩

end WebCondx
